import Mathlib

/-!
Shallow embedding of the telemetry-agent core (RollingWindow, HysteresisFsm,
InterfaceTracker) translated from `src/src/rolling_window.cpp`,
`src/src/hysteresis_fsm.cpp` and `src/src/interface_tracker.cpp`.

Numeric modelling: C++ `double` is modelled by `ℚ` (exact arithmetic),
`int64_t` timestamps by `ℤ`, and the `std::numeric_limits<int64_t>::min()`
"unset" sentinel by `Option ℤ = none`.  Human-readable reason strings carried
by `FsmUpdate` / `TransitionEvent` are omitted (no claim depends on their
content).
-/

set_option maxHeartbeats 4000000
set_option maxRecDepth 10000

namespace Telemetry

/-- The four metric channels of one sample (`Metrics` in `rolling_window.hpp`,
fields visible from every use in `rolling_window.cpp` and the tests). -/
structure Metrics where
  rtt_ms : ℚ := 0
  throughput_mbps : ℚ := 0
  loss_pct : ℚ := 0
  jitter_ms : ℚ := 0
deriving DecidableEq

/-- One ring slot: `{valid, ts, metrics}` (spec §3; slot layout used by
`RollingWindow::ingest`/`summary`). -/
structure Slot where
  valid : Bool := false
  ts : ℤ := 0
  m : Metrics := {}
deriving DecidableEq

/-- Modelled from the spec: the window capacity `W = 45` seconds lives in the
missing header `rolling_window.hpp` (`kWindow`); spec §3 and the tests fix it
to 45. -/
def kWindow : ℕ := 45

/-- Modelled from the spec: `in_range(ts, lo, hi)` is declared in the missing
header; per spec §3 a slot is in-window iff its `ts ∈ [newest−(W−1), newest]`,
and every call site passes `(ts, oldest, newest)`. -/
def in_range (ts lo hi : ℤ) : Bool :=
  decide (lo ≤ ts) && decide (ts ≤ hi)

/-- The rolling window state: `newest_ts_` (sentinel modelled as `none`) and
the ring of `kWindow` slots. -/
structure RollingWindow where
  newest_ts : Option ℤ := none
  slots : Fin 45 → Slot := fun _ => {}

/-- `RollingWindow::idx`: non-negative modulo of the timestamp
(`rolling_window.cpp` lines 6–12); `Int.emod` by a positive modulus is already
non-negative, which is exactly what the C++ negative-fixup computes. -/
def idx (ts : ℤ) : Fin 45 :=
  ⟨(ts % 45).toNat, by
    have h0 : (0 : ℤ) ≤ ts % 45 := Int.emod_nonneg ts (by norm_num)
    have h1 : ts % 45 < 45 := Int.emod_lt_of_pos ts (by norm_num)
    omega⟩

/-- `RollingWindow::ingest` (`rolling_window.cpp` lines 14–46): raise
`newest_ts`, reject too-old, otherwise write the slot (empty-fill / same-ts
correction / collision overwrite). -/
def RollingWindow.ingest (w : RollingWindow) (ts : ℤ) (m : Metrics) :
    RollingWindow × Bool :=
  let newest : ℤ :=
    match w.newest_ts with
    | none => ts
    | some n => if ts > n then ts else n
  let w1 : RollingWindow := { w with newest_ts := some newest }
  if ts < newest - (45 - 1) then
    (w1, false)
  else
    let s := w1.slots (idx ts)
    let s' : Slot :=
      if !s.valid then { valid := true, ts := ts, m := m }
      else if s.ts = ts then { s with m := m }
      else { valid := true, ts := ts, m := m }
    ({ w1 with slots := Function.update w1.slots (idx ts) s' }, true)

/-- `RollingWindow::note_time` (`rolling_window.cpp` lines 48–54). -/
def RollingWindow.note_time (w : RollingWindow) (ts_now : ℤ) : RollingWindow :=
  match w.newest_ts with
  | none => { w with newest_ts := some ts_now }
  | some n => if ts_now > n then { w with newest_ts := some ts_now } else w

/-- `RollingWindow::Summary` (fields per spec §3 and the writes in
`rolling_window.cpp` lines 56–99). -/
structure Summary where
  newest_ts : ℤ := 0
  oldest_ts : ℤ := 0
  count : ℕ := 0
  expected : ℕ := 45
  confidence : ℚ := 0
  missing_rate : ℚ := 0
  avg_rtt : ℚ := 0
  avg_tp : ℚ := 0
  avg_loss : ℚ := 0
  avg_jit : ℚ := 0
deriving DecidableEq

/-- The slots counted by `RollingWindow::summary`: valid and in range. -/
def RollingWindow.included (w : RollingWindow) (oldest newest : ℤ) : List Slot :=
  ((List.finRange 45).map w.slots).filter
    (fun s => s.valid && in_range s.ts oldest newest)

/-- `RollingWindow::summary` (`rolling_window.cpp` lines 56–99). -/
def RollingWindow.summary (w : RollingWindow) : Summary :=
  match w.newest_ts with
  | none =>
      { newest_ts := 0, oldest_ts := 0, count := 0, expected := 45
        confidence := 0, missing_rate := 1
        avg_rtt := 0, avg_tp := 0, avg_loss := 0, avg_jit := 0 }
  | some newest =>
      let oldest := newest - (45 - 1)
      let l := w.included oldest newest
      let c := l.length
      let sr := (l.map (fun s => s.m.rtt_ms)).sum
      let st := (l.map (fun s => s.m.throughput_mbps)).sum
      let sl := (l.map (fun s => s.m.loss_pct)).sum
      let sj := (l.map (fun s => s.m.jitter_ms)).sum
      { newest_ts := newest, oldest_ts := oldest, count := c, expected := 45
        confidence := (c : ℚ) / 45, missing_rate := 1 - (c : ℚ) / 45
        avg_rtt := if 0 < c then sr / (c : ℚ) else 0
        avg_tp := if 0 < c then st / (c : ℚ) else 0
        avg_loss := if 0 < c then sl / (c : ℚ) else 0
        avg_jit := if 0 < c then sj / (c : ℚ) else 0 }

/-- `RollingWindow::has_sample` (`rolling_window.cpp` lines 101–115). -/
def RollingWindow.has_sample (w : RollingWindow) (ts : ℤ) : Bool :=
  match w.newest_ts with
  | none => false
  | some newest =>
      let oldest := newest - (45 - 1)
      if !(in_range ts oldest newest) then false
      else
        let s := w.slots (idx ts)
        s.valid && decide (s.ts = ts)

/-- Interface status (`IfStatus` in the headers; values per spec §3). -/
inductive IfStatus where
  | Healthy
  | Degraded
  | Down
deriving DecidableEq

/-- FSM configuration (`FsmConfig`; fields are exactly those read by
`hysteresis_fsm.cpp`). -/
structure FsmConfig where
  healthy_enter : ℚ
  healthy_exit : ℚ
  down_enter : ℚ
  down_exit : ℚ
  healthy_enter_N : ℕ
  healthy_exit_N : ℕ
  down_enter_N : ℕ
  down_exit_N : ℕ
  min_dwell_sec : ℤ
  min_confidence_for_promotion : ℚ
  force_down_if_confidence_below : ℚ
deriving DecidableEq

/-- Mutable FSM state: status, the four confirmation counters, and
`last_transition_ts_` (sentinel modelled as `none`). -/
structure FsmState where
  status : IfStatus
  cnt_below_healthy_exit : ℕ := 0
  cnt_above_healthy_enter : ℕ := 0
  cnt_below_down_enter : ℕ := 0
  cnt_above_down_exit : ℕ := 0
  last_transition_ts : Option ℤ := none
deriving DecidableEq

/-- Result of one `HysteresisFsm::update` (reason string omitted). -/
structure FsmUpdate where
  status : IfStatus
  transitioned : Bool
deriving DecidableEq

/-- `std::max(0.0, std::min(1.0, x))` as used throughout the sources. -/
def clamp01 (x : ℚ) : ℚ := max 0 (min 1 x)

/-- `HysteresisFsm::dwell_ok_` (`hysteresis_fsm.cpp` lines 22–25). -/
def dwell_ok (cfg : FsmConfig) (s : FsmState) (ts_now : ℤ) : Bool :=
  match s.last_transition_ts with
  | none => true
  | some t0 => decide (ts_now - t0 ≥ cfg.min_dwell_sec)

/-- `HysteresisFsm::transition_` together with
`reset_counters_for_state_` (`hysteresis_fsm.cpp` lines 27–49): set the new
status, stamp `last_transition_ts`, zero all four counters. -/
def fsmTransition (_s : FsmState) (ts_now : ℤ) (next : IfStatus) :
    FsmState × FsmUpdate :=
  let s' : FsmState :=
    { status := next
      cnt_below_healthy_exit := 0
      cnt_above_healthy_enter := 0
      cnt_below_down_enter := 0
      cnt_above_down_exit := 0
      last_transition_ts := some ts_now }
  (s', { status := next, transitioned := true })

/-- `HysteresisFsm::update` (`hysteresis_fsm.cpp` lines 51–155): clamp the
inputs, take the force-down fast-path when enabled, otherwise accumulate
evidence for the transitions reachable from the current state. -/
def fsmUpdate (cfg : FsmConfig) (s : FsmState) (ts_now : ℤ)
    (score confidence : ℚ) : FsmState × FsmUpdate :=
  let score := clamp01 score
  let confidence := clamp01 confidence
  if cfg.force_down_if_confidence_below ≥ 0 ∧
      confidence < cfg.force_down_if_confidence_below then
    if s.status ≠ IfStatus.Down then
      fsmTransition s ts_now IfStatus.Down
    else
      (s, { status := s.status, transitioned := false })
  else
    match s.status with
    | IfStatus.Healthy =>
        let cnt := if score < cfg.healthy_exit
                   then s.cnt_below_healthy_exit + 1 else 0
        let s := { s with cnt_below_healthy_exit := cnt }
        if cnt ≥ cfg.healthy_exit_N ∧ dwell_ok cfg s ts_now then
          fsmTransition s ts_now IfStatus.Degraded
        else
          (s, { status := s.status, transitioned := false })
    | IfStatus.Degraded =>
        let cntUp := if confidence ≥ cfg.min_confidence_for_promotion ∧
                        score > cfg.healthy_enter
                     then s.cnt_above_healthy_enter + 1 else 0
        let cntDn := if score < cfg.down_enter
                     then s.cnt_below_down_enter + 1 else 0
        let s := { s with cnt_above_healthy_enter := cntUp
                          cnt_below_down_enter := cntDn }
        if cntDn ≥ cfg.down_enter_N then
          fsmTransition s ts_now IfStatus.Down
        else if cntUp ≥ cfg.healthy_enter_N ∧ dwell_ok cfg s ts_now then
          fsmTransition s ts_now IfStatus.Healthy
        else
          (s, { status := s.status, transitioned := false })
    | IfStatus.Down =>
        let cnt := if score > cfg.down_exit
                   then s.cnt_above_down_exit + 1 else 0
        let s := { s with cnt_above_down_exit := cnt }
        if cnt ≥ cfg.down_exit_N ∧ dwell_ok cfg s ts_now then
          fsmTransition s ts_now IfStatus.Degraded
        else
          (s, { status := s.status, transitioned := false })

/-- Score configuration (`ScoreConfig`; fields are exactly those read by
`interface_tracker.cpp`). -/
structure ScoreConfig where
  ewma_alpha : ℚ
  useEwma : Bool
  enable_downtrend_penalty : Bool
  downtrend_penalty : ℚ
  w_tp : ℚ
  w_rtt : ℚ
  w_loss : ℚ
  w_jit : ℚ
  tp_max_mbps : ℚ
  rtt_min_ms : ℚ
  rtt_max_ms : ℚ
  loss_max_pct : ℚ
  jit_max_ms : ℚ
  enable_confidence_cap : Bool
  cap_confidence_threshold : ℚ
  cap_max_score_when_low_conf : ℚ
deriving DecidableEq

/-- `AgentConfig`: the score and FSM configurations a tracker is built with. -/
structure AgentConfig where
  score : ScoreConfig
  fsm : FsmConfig
deriving DecidableEq

/-- `InterfaceSnapshot` (fields per the brace initialization in
`InterfaceTracker::recompute_`; the `iface` name string is omitted). -/
structure InterfaceSnapshot where
  ts : ℤ := 0
  score_raw : ℚ := 0
  score_smoothed : ℚ := 0
  score_used : ℚ := 0
  confidence : ℚ := 0
  missing_rate : ℚ := 0
  avg_rtt_ms : ℚ := 0
  avg_tp_mbps : ℚ := 0
  avg_loss_pct : ℚ := 0
  avg_jitter_ms : ℚ := 0
  status : IfStatus := IfStatus.Degraded
deriving DecidableEq

/-- `TransitionEvent` (iface name and reason string omitted). -/
structure TransitionEvent where
  ts : ℤ
  src : IfStatus
  dst : IfStatus
deriving DecidableEq

/-- The mutable state of one `InterfaceTracker`: its window, its FSM, the EWMA
state (`score_ewma_` + `ewma_init_`), both strategy scores, the latest
snapshot and the at-most-one pending transition. -/
structure TrackerState where
  window : RollingWindow := {}
  fsm : FsmState := { status := IfStatus.Degraded }
  score_avg : ℚ := 0
  score_ewma : ℚ := 0
  score_used : ℚ := 0
  ewma_init : Bool := false
  last_snapshot : InterfaceSnapshot := {}
  last_transition : Option TransitionEvent := none

/-- `InterfaceTracker::compute_avg_score_` (`interface_tracker.cpp` lines
45–65): normalized weighted score of the window averages, 0 when empty. -/
def compute_avg_score (cfg : AgentConfig) (s : Summary) : ℚ :=
  if s.count = 0 then 0
  else
    let T := clamp01 (s.avg_tp / cfg.score.tp_max_mbps)
    let rtt_span := max (1 / 1000000000)
        (cfg.score.rtt_max_ms - cfg.score.rtt_min_ms)
    let R := 1 - clamp01 ((s.avg_rtt - cfg.score.rtt_min_ms) / rtt_span)
    let L := 1 - clamp01 (s.avg_loss / cfg.score.loss_max_pct)
    let J := 1 - clamp01 (s.avg_jit / cfg.score.jit_max_ms)
    clamp01 (cfg.score.w_tp * T + cfg.score.w_rtt * R +
             cfg.score.w_loss * L + cfg.score.w_jit * J)

/-- `InterfaceTracker::compute_ewma_score_` (`interface_tracker.cpp` lines
70–78): EWMA step with optional downtrend penalty, clamped to [0,1]. -/
def compute_ewma_score (cfg : AgentConfig) (prev_ewma current_avg : ℚ) : ℚ :=
  let a := clamp01 cfg.score.ewma_alpha
  let e := a * current_avg + (1 - a) * prev_ewma
  let e := if cfg.score.enable_downtrend_penalty ∧ current_avg < prev_ewma
           then e - |cfg.score.downtrend_penalty| else e
  clamp01 e

/-- `InterfaceTracker::apply_confidence_cap_` (`interface_tracker.cpp` lines
80–87). -/
def apply_confidence_cap (cfg : AgentConfig) (score confidence : ℚ) : ℚ :=
  if !cfg.score.enable_confidence_cap then score
  else if confidence ≥ cfg.score.cap_confidence_threshold then score
  else min score cfg.score.cap_max_score_when_low_conf

/-- `InterfaceTracker::recompute_` (`interface_tracker.cpp` lines 89–146):
summarize the window, run both scoring strategies, apply the cap to the
instantaneous score, feed the selected score to the FSM, rebuild the snapshot
and queue a transition event on a status change. -/
def TrackerState.recompute (cfg : AgentConfig) (t : TrackerState)
    (ts_now : ℤ) : TrackerState :=
  let sum := t.window.summary
  let confidence : ℚ :=
    if 0 < sum.expected then (sum.count : ℚ) / (sum.expected : ℚ) else 0
  let score_avg := compute_avg_score cfg sum
  let score_avg := apply_confidence_cap cfg score_avg confidence
  let score_ewma :=
    if !t.ewma_init then score_avg
    else compute_ewma_score cfg t.score_ewma score_avg
  let score_used := if cfg.score.useEwma then score_ewma else score_avg
  let prev_status := t.fsm.status
  let r := fsmUpdate cfg.fsm t.fsm ts_now score_used confidence
  let snap : InterfaceSnapshot :=
    { ts := ts_now
      score_raw := score_avg
      score_smoothed := score_ewma
      score_used := score_used
      confidence := confidence
      missing_rate := sum.missing_rate
      avg_rtt_ms := sum.avg_rtt
      avg_tp_mbps := sum.avg_tp
      avg_loss_pct := sum.avg_loss
      avg_jitter_ms := sum.avg_jit
      status := r.2.status }
  { t with
      fsm := r.1
      score_avg := score_avg
      score_ewma := score_ewma
      score_used := score_used
      ewma_init := true
      last_snapshot := snap
      last_transition :=
        if r.2.transitioned ∧ prev_status ≠ r.2.status then
          some { ts := ts_now, src := prev_status, dst := r.2.status }
        else t.last_transition }

/-- The int64 value `RollingWindow::newest_ts()` returns (the sentinel is the
smallest int64). -/
def RollingWindow.newest_tsD (w : RollingWindow) : ℤ :=
  w.newest_ts.getD (-(2 ^ 63))

/-- `InterfaceTracker::ingest` (`interface_tracker.cpp` lines 28–36): forward
to the window; recompute at the window's newest time only when accepted. -/
def TrackerState.ingest (cfg : AgentConfig) (t : TrackerState) (ts : ℤ)
    (m : Metrics) : TrackerState :=
  let r := t.window.ingest ts m
  let t := { t with window := r.1 }
  if !r.2 then t
  else t.recompute cfg t.window.newest_tsD

/-- `InterfaceTracker::note_time` (`interface_tracker.cpp` lines 38–41). -/
def TrackerState.note_time (cfg : AgentConfig) (t : TrackerState)
    (ts_now : ℤ) : TrackerState :=
  let t := { t with window := t.window.note_time ts_now }
  t.recompute cfg ts_now

/-- One external operation on a tracker (spec §4.4's mutating interface). -/
inductive TrackerOp where
  | ing (ts : ℤ) (m : Metrics)
  | note (ts : ℤ)

/-- Apply one operation. -/
def TrackerState.applyOp (cfg : AgentConfig) (t : TrackerState) :
    TrackerOp → TrackerState
  | TrackerOp.ing ts m => t.ingest cfg ts m
  | TrackerOp.note ts => t.note_time cfg ts

/-- Run a list of operations on a tracker, first one first. -/
def runOps (cfg : AgentConfig) (t : TrackerState) (ops : List TrackerOp) :
    TrackerState :=
  ops.foldl (TrackerState.applyOp cfg) t

/-- The value `max(newest_ts, ts)` that `RollingWindow::ingest` assigns first
(with the unset sentinel absorbed by `ts`). -/
def ingestNewest (w : RollingWindow) (ts : ℤ) : ℤ :=
  match w.newest_ts with
  | none => ts
  | some n => max n ts

/-- Run a list of `(ts, score, confidence)` FSM updates, collecting the
`(ts, new status)` of every transition in order. -/
def runFsmEvents (cfg : FsmConfig) (s : FsmState) :
    List (ℤ × ℚ × ℚ) → FsmState × List (ℤ × IfStatus)
  | [] => (s, [])
  | i :: rest =>
      let r := fsmUpdate cfg s i.1 i.2.1 i.2.2
      let rr := runFsmEvents cfg r.1 rest
      (rr.1, (if r.2.transitioned then [(i.1, r.2.status)] else []) ++ rr.2)

/-- All four metric channels non-negative (spec §3: "four non-negative
real-valued channels"). -/
def Metrics.Nonneg (m : Metrics) : Prop :=
  0 ≤ m.rtt_ms ∧ 0 ≤ m.throughput_mbps ∧ 0 ≤ m.loss_pct ∧ 0 ≤ m.jitter_ms

instance (m : Metrics) : Decidable m.Nonneg := by
  unfold Metrics.Nonneg
  infer_instance

/-- Every slot of the ring (valid or not) carries non-negative metrics. -/
def WindowNonneg (w : RollingWindow) : Prop :=
  ∀ i, ((w.slots i).m).Nonneg

/-- An operation with non-negative input metrics. -/
def TrackerOp.nonneg : TrackerOp → Prop
  | TrackerOp.ing _ m => m.Nonneg
  | TrackerOp.note _ => True

/-- The numeric invariants claimed for every snapshot: scores, confidence and
missing rate in [0,1], non-negative averages, and
`missing_rate + confidence = 1`. -/
def SnapBounds (sn : InterfaceSnapshot) : Prop :=
  0 ≤ sn.score_raw ∧ sn.score_raw ≤ 1 ∧
  0 ≤ sn.score_smoothed ∧ sn.score_smoothed ≤ 1 ∧
  0 ≤ sn.score_used ∧ sn.score_used ≤ 1 ∧
  0 ≤ sn.confidence ∧ sn.confidence ≤ 1 ∧
  0 ≤ sn.missing_rate ∧ sn.missing_rate ≤ 1 ∧
  sn.missing_rate + sn.confidence = 1 ∧
  0 ≤ sn.avg_rtt_ms ∧ 0 ≤ sn.avg_tp_mbps ∧ 0 ≤ sn.avg_loss_pct ∧
  0 ≤ sn.avg_jitter_ms

/-- Ingest a list of `(ts, metrics)` samples into a fresh window, first one
first. -/
def ingestAll (l : List (ℤ × Metrics)) : RollingWindow :=
  l.foldl (fun w p => (w.ingest p.1 p.2).1) {}

/-- Modelled from the spec: the reference defaults of §6 (`W=45`, `tp_max=200`,
`rtt_min=10`, `rtt_max=800`, `loss_max=30`, `jit_max=200`, weights
`(0.3, 0.3, 0.2, 0.2)`, `ewma_alpha=0.25`, thresholds
`(0.72, 0.66, 0.35, 0.45)`, counts `(6, 6, 3, 5)`, `min_dwell=5`); the
force-down threshold is negative (disabled by default, per the comment in
`hysteresis_fsm.cpp` lines 56–57), the confidence cap and EWMA selection are
off, and `min_confidence_for_promotion` is 0.3. -/
def specDefaultConfig : AgentConfig :=
  { score :=
      { ewma_alpha := 1/4, useEwma := false
        enable_downtrend_penalty := false, downtrend_penalty := 0
        w_tp := 3/10, w_rtt := 3/10, w_loss := 1/5, w_jit := 1/5
        tp_max_mbps := 200, rtt_min_ms := 10, rtt_max_ms := 800
        loss_max_pct := 30, jit_max_ms := 200
        enable_confidence_cap := false, cap_confidence_threshold := 0
        cap_max_score_when_low_conf := 0 }
    fsm :=
      { healthy_enter := 18/25, healthy_exit := 33/50, down_enter := 7/20
        down_exit := 9/20, healthy_enter_N := 6, healthy_exit_N := 6
        down_enter_N := 3, down_exit_N := 5, min_dwell_sec := 5
        min_confidence_for_promotion := 3/10
        force_down_if_confidence_below := -1 } }

/-! ## Theorems -/

/-- Slot-write collapse: all three occupied-slot branches of
`RollingWindow::ingest` store `{valid=true, ts, m}`. -/
theorem ingest_slot_collapse (s : Slot) (ts : ℤ) (m : Metrics) :
    (if !s.valid then ({ valid := true, ts := ts, m := m } : Slot)
     else if s.ts = ts then { s with m := m }
     else { valid := true, ts := ts, m := m }) =
      { valid := true, ts := ts, m := m } := by
  rcases s with ⟨v, t0, m0⟩
  rcases v
  · simp
  · by_cases ht : t0 = ts <;> simp [ht]

/-- Closed form of `RollingWindow::ingest`. -/
theorem ingest_eq (nt : Option ℤ) (sl : Fin 45 → Slot) (ts : ℤ) (m : Metrics) :
    RollingWindow.ingest ⟨nt, sl⟩ ts m =
      (if ts < ingestNewest ⟨nt, sl⟩ ts - (45 - 1) then
        (⟨some (ingestNewest ⟨nt, sl⟩ ts), sl⟩, false)
      else
        (⟨some (ingestNewest ⟨nt, sl⟩ ts),
          Function.update sl (idx ts) { valid := true, ts := ts, m := m }⟩,
          true)) := by
  rcases nt with _ | n
  · simp only [RollingWindow.ingest, ingestNewest, ingest_slot_collapse]
  · have hmax : (if ts > n then ts else n) = max n ts := by
      rcases le_or_lt ts n with h | h
      · rw [if_neg (not_lt.mpr h), max_eq_left h]
      · rw [if_pos h, max_eq_right h.le]
    simp only [RollingWindow.ingest, ingestNewest, hmax, ingest_slot_collapse]

theorem ingest_newest_eq (w : RollingWindow) (ts : ℤ) (m : Metrics) :
    (w.ingest ts m).1.newest_ts = some (ingestNewest w ts) := by
  rcases w with ⟨nt, sl⟩
  rw [ingest_eq]
  split_ifs <;> rfl

theorem ingest_rejected_iff (w : RollingWindow) (ts : ℤ) (m : Metrics) :
    (w.ingest ts m).2 = false ↔ ts < ingestNewest w ts - (45 - 1) := by
  rcases w with ⟨nt, sl⟩
  rw [ingest_eq]
  split_ifs with h <;> simp [h] <;> omega

theorem ingest_rejected_state (w : RollingWindow) (ts : ℤ) (m : Metrics)
    (h : (w.ingest ts m).2 = false) : (w.ingest ts m).1 = w := by
  rcases w with ⟨nt, sl⟩
  rw [ingest_eq] at h ⊢
  split_ifs at h ⊢ with hr
  rcases nt with _ | n
  · exfalso
    simp only [ingestNewest] at hr
    omega
  · have hn : ingestNewest ⟨some n, sl⟩ ts = n := by
      simp only [ingestNewest] at hr ⊢
      omega
    rw [hn]

theorem ingest_accepted_state (w : RollingWindow) (ts : ℤ) (m : Metrics)
    (h : (w.ingest ts m).2 = true) :
    (w.ingest ts m).1.slots =
      Function.update w.slots (idx ts) { valid := true, ts := ts, m := m } := by
  rcases w with ⟨nt, sl⟩
  rw [ingest_eq] at h ⊢
  split_ifs at h ⊢ with hr
  rfl

/-- C6: `RollingWindow::ingest(ts, m)` first raises `newest_ts` to
`max(newest_ts, ts)`; it returns false exactly when `ts < newest_ts − (W−1)`
after that update; a rejected ingest leaves the slot array and the subsequent
`summary()` unchanged; an accepted ingest writes
`slot[ts mod W] := {valid=true, ts, m}` unconditionally. -/
theorem ingest_contract (w : RollingWindow) (ts : ℤ) (m : Metrics) :
    (w.ingest ts m).1.newest_ts = some (ingestNewest w ts) ∧
    ((w.ingest ts m).2 = false ↔ ts < ingestNewest w ts - (45 - 1)) ∧
    ((w.ingest ts m).2 = false →
      (w.ingest ts m).1.slots = w.slots ∧
      (w.ingest ts m).1.summary = w.summary) ∧
    ((w.ingest ts m).2 = true →
      (w.ingest ts m).1.slots =
        Function.update w.slots (idx ts) { valid := true, ts := ts, m := m }) := by
  refine ⟨ingest_newest_eq w ts m, ingest_rejected_iff w ts m, ?_, ?_⟩
  · intro h
    rw [ingest_rejected_state w ts m h]
    exact ⟨rfl, rfl⟩
  · intro h
    exact ingest_accepted_state w ts m h

/-- Witness for C6: on a window whose newest time is 100, an ingest at
timestamp 0 is rejected and leaves the slots and summary unchanged, and an
in-window ingest at timestamp 90 is accepted and writes its slot. -/
theorem ingest_contract_witness :
    (((RollingWindow.note_time {} 100).ingest 0 {}).2 = false ∧
      ((RollingWindow.note_time {} 100).ingest 0 {}).1.summary =
        (RollingWindow.note_time {} 100).summary) ∧
    (((RollingWindow.note_time {} 100).ingest 90 {}).2 = true ∧
      ((RollingWindow.note_time {} 100).ingest 90 {}).1.slots =
        Function.update (RollingWindow.note_time {} 100).slots (idx 90)
          { valid := true, ts := 90, m := {} }) := by
  have h1 := ingest_contract (RollingWindow.note_time {} 100) 0 {}
  have h2 := ingest_contract (RollingWindow.note_time {} 100) 90 {}
  have hrej : ((RollingWindow.note_time {} 100).ingest 0 {}).2 = false := by
    decide
  have hacc : ((RollingWindow.note_time {} 100).ingest 90 {}).2 = true := by
    decide
  exact ⟨⟨hrej, (h1.2.2.1 hrej).2⟩, ⟨hacc, h2.2.2.2 hacc⟩⟩

/-- C8: on a fresh window, ingest at ts=3000 then ts=3045 (same ring index,
W=45) yields summary count 1, newest_ts 3045, and `has_sample(3000) = false`. -/
theorem ring_overwrite_example :
    (RollingWindow.summary
      (RollingWindow.ingest
        (RollingWindow.ingest {} 3000 { rtt_ms := 10 }).1
        3045 { rtt_ms := 110 }).1).count = 1 ∧
    (RollingWindow.summary
      (RollingWindow.ingest
        (RollingWindow.ingest {} 3000 { rtt_ms := 10 }).1
        3045 { rtt_ms := 110 }).1).newest_ts = 3045 ∧
    RollingWindow.has_sample
      (RollingWindow.ingest
        (RollingWindow.ingest {} 3000 { rtt_ms := 10 }).1
        3045 { rtt_ms := 110 }).1 3000 = false := by
  decide

/-! ### HysteresisFsm step characterizations -/

theorem fsmUpdate_force_active (cfg : FsmConfig) (s : FsmState) (ts : ℤ)
    (score conf : ℚ)
    (hf : cfg.force_down_if_confidence_below ≥ 0 ∧
      clamp01 conf < cfg.force_down_if_confidence_below) :
    fsmUpdate cfg s ts score conf =
      if s.status ≠ IfStatus.Down then fsmTransition s ts IfStatus.Down
      else (s, { status := s.status, transitioned := false }) := by
  simp only [fsmUpdate, if_pos hf]

theorem fsmUpdate_healthy (cfg : FsmConfig) (s : FsmState) (ts : ℤ)
    (score conf : ℚ) (hs : s.status = IfStatus.Healthy)
    (hf : ¬(cfg.force_down_if_confidence_below ≥ 0 ∧
      clamp01 conf < cfg.force_down_if_confidence_below)) :
    fsmUpdate cfg s ts score conf =
      (let cnt := if clamp01 score < cfg.healthy_exit
                  then s.cnt_below_healthy_exit + 1 else 0
       let s1 := { s with cnt_below_healthy_exit := cnt }
       if cnt ≥ cfg.healthy_exit_N ∧ dwell_ok cfg s1 ts then
         fsmTransition s1 ts IfStatus.Degraded
       else (s1, { status := s1.status, transitioned := false })) := by
  rcases s with ⟨st, c1, c2, c3, c4, lt⟩
  cases hs
  simp only [fsmUpdate, if_neg hf]

theorem fsmUpdate_degraded (cfg : FsmConfig) (s : FsmState) (ts : ℤ)
    (score conf : ℚ) (hs : s.status = IfStatus.Degraded)
    (hf : ¬(cfg.force_down_if_confidence_below ≥ 0 ∧
      clamp01 conf < cfg.force_down_if_confidence_below)) :
    fsmUpdate cfg s ts score conf =
      (let cntUp := if clamp01 conf ≥ cfg.min_confidence_for_promotion ∧
                       clamp01 score > cfg.healthy_enter
                    then s.cnt_above_healthy_enter + 1 else 0
       let cntDn := if clamp01 score < cfg.down_enter
                    then s.cnt_below_down_enter + 1 else 0
       let s1 := { s with cnt_above_healthy_enter := cntUp
                          cnt_below_down_enter := cntDn }
       if cntDn ≥ cfg.down_enter_N then
         fsmTransition s1 ts IfStatus.Down
       else if cntUp ≥ cfg.healthy_enter_N ∧ dwell_ok cfg s1 ts then
         fsmTransition s1 ts IfStatus.Healthy
       else (s1, { status := s1.status, transitioned := false })) := by
  rcases s with ⟨st, c1, c2, c3, c4, lt⟩
  cases hs
  simp only [fsmUpdate, if_neg hf]

theorem fsmUpdate_down (cfg : FsmConfig) (s : FsmState) (ts : ℤ)
    (score conf : ℚ) (hs : s.status = IfStatus.Down)
    (hf : ¬(cfg.force_down_if_confidence_below ≥ 0 ∧
      clamp01 conf < cfg.force_down_if_confidence_below)) :
    fsmUpdate cfg s ts score conf =
      (let cnt := if clamp01 score > cfg.down_exit
                  then s.cnt_above_down_exit + 1 else 0
       let s1 := { s with cnt_above_down_exit := cnt }
       if cnt ≥ cfg.down_exit_N ∧ dwell_ok cfg s1 ts then
         fsmTransition s1 ts IfStatus.Degraded
       else (s1, { status := s1.status, transitioned := false })) := by
  rcases s with ⟨st, c1, c2, c3, c4, lt⟩
  cases hs
  simp only [fsmUpdate, if_neg hf]

/-- On every transition, `transition_` stamps the timestamp and zeroes all
four confirmation counters. -/
theorem fsmUpdate_trans_state (cfg : FsmConfig) (s : FsmState) (ts : ℤ)
    (score conf : ℚ)
    (h : (fsmUpdate cfg s ts score conf).2.transitioned = true) :
    (fsmUpdate cfg s ts score conf).1 =
      { status := (fsmUpdate cfg s ts score conf).2.status
        cnt_below_healthy_exit := 0
        cnt_above_healthy_enter := 0
        cnt_below_down_enter := 0
        cnt_above_down_exit := 0
        last_transition_ts := some ts } := by
  rcases s with ⟨st, c1, c2, c3, c4, lt⟩
  rcases st <;>
    simp only [fsmUpdate, fsmTransition] at h ⊢ <;>
    split_ifs at h ⊢ <;>
    simp_all

/-- A non-transitioning update leaves `last_transition_ts` unchanged. -/
theorem fsmUpdate_no_trans_last (cfg : FsmConfig) (s : FsmState) (ts : ℤ)
    (score conf : ℚ)
    (h : (fsmUpdate cfg s ts score conf).2.transitioned = false) :
    (fsmUpdate cfg s ts score conf).1.last_transition_ts =
      s.last_transition_ts := by
  rcases s with ⟨st, c1, c2, c3, c4, lt⟩
  rcases st <;>
    simp only [fsmUpdate, fsmTransition] at h ⊢ <;>
    split_ifs at h ⊢ <;>
    simp_all

/-- Any transition whose target is not `Down` passed the dwell gate. -/
theorem fsmUpdate_trans_nonDown_dwell (cfg : FsmConfig) (s : FsmState)
    (ts : ℤ) (score conf : ℚ)
    (h : (fsmUpdate cfg s ts score conf).2.transitioned = true)
    (hd : (fsmUpdate cfg s ts score conf).2.status ≠ IfStatus.Down) :
    dwell_ok cfg s ts = true := by
  rcases s with ⟨st, c1, c2, c3, c4, lt⟩
  rcases st <;>
    simp only [fsmUpdate, fsmTransition] at h hd ⊢ <;>
    split_ifs at h hd ⊢ <;>
    simp_all [dwell_ok]

/-- C5: immediately after any FSM state transition (the force-down fast-path
included), all four confirmation counters are 0 and `last_transition_ts`
equals the timestamp of the transitioning update. -/
theorem fsm_counters_reset_on_transition (cfg : FsmConfig) (s : FsmState)
    (ts : ℤ) (score conf : ℚ)
    (h : (fsmUpdate cfg s ts score conf).2.transitioned = true) :
    (fsmUpdate cfg s ts score conf).1.cnt_below_healthy_exit = 0 ∧
    (fsmUpdate cfg s ts score conf).1.cnt_above_healthy_enter = 0 ∧
    (fsmUpdate cfg s ts score conf).1.cnt_below_down_enter = 0 ∧
    (fsmUpdate cfg s ts score conf).1.cnt_above_down_exit = 0 ∧
    (fsmUpdate cfg s ts score conf).1.last_transition_ts = some ts := by
  rw [fsmUpdate_trans_state cfg s ts score conf h]
  exact ⟨rfl, rfl, rfl, rfl, rfl⟩

/-- Witness for C5: a force-down transition out of Degraded (confidence 0
below a force threshold 1/2) zeroes all counters and stamps the timestamp. -/
theorem fsm_counters_reset_on_transition_witness :
    (fsmUpdate
        { healthy_enter := 18/25, healthy_exit := 33/50, down_enter := 7/20
          down_exit := 9/20, healthy_enter_N := 6, healthy_exit_N := 6
          down_enter_N := 3, down_exit_N := 5, min_dwell_sec := 5
          min_confidence_for_promotion := 3/10
          force_down_if_confidence_below := 1/2 }
        { status := IfStatus.Degraded, cnt_below_healthy_exit := 4
          cnt_above_healthy_enter := 2, cnt_below_down_enter := 1
          cnt_above_down_exit := 3, last_transition_ts := some 1 }
        7 1 0).1.cnt_below_healthy_exit = 0 ∧
    (fsmUpdate
        { healthy_enter := 18/25, healthy_exit := 33/50, down_enter := 7/20
          down_exit := 9/20, healthy_enter_N := 6, healthy_exit_N := 6
          down_enter_N := 3, down_exit_N := 5, min_dwell_sec := 5
          min_confidence_for_promotion := 3/10
          force_down_if_confidence_below := 1/2 }
        { status := IfStatus.Degraded, cnt_below_healthy_exit := 4
          cnt_above_healthy_enter := 2, cnt_below_down_enter := 1
          cnt_above_down_exit := 3, last_transition_ts := some 1 }
        7 1 0).1.last_transition_ts = some 7 := by
  have h := fsm_counters_reset_on_transition
    { healthy_enter := 18/25, healthy_exit := 33/50, down_enter := 7/20
      down_exit := 9/20, healthy_enter_N := 6, healthy_exit_N := 6
      down_enter_N := 3, down_exit_N := 5, min_dwell_sec := 5
      min_confidence_for_promotion := 3/10
      force_down_if_confidence_below := 1/2 }
    { status := IfStatus.Degraded, cnt_below_healthy_exit := 4
      cnt_above_healthy_enter := 2, cnt_below_down_enter := 1
      cnt_above_down_exit := 3, last_transition_ts := some 1 }
    7 1 0 (by with_unfolding_all decide)
  exact ⟨h.1, h.2.2.2.2⟩

/-- C10: in state Down with the force-down threshold enabled, an update whose
confidence is below the threshold returns `{Down, transitioned=false}` and
leaves the whole FSM state (all counters included) unchanged, so Down→Degraded
recovery evidence can only accumulate on ticks at or above the threshold. -/
theorem fsm_down_low_confidence_frame (cfg : FsmConfig) (s : FsmState)
    (ts : ℤ) (score conf : ℚ) (hs : s.status = IfStatus.Down)
    (hf : 0 ≤ cfg.force_down_if_confidence_below) (hc0 : 0 ≤ conf)
    (hc : conf < cfg.force_down_if_confidence_below) :
    fsmUpdate cfg s ts score conf =
      (s, { status := IfStatus.Down, transitioned := false }) := by
  have hle : clamp01 conf ≤ conf := max_le hc0 (min_le_right 1 conf)
  have hcl : clamp01 conf < cfg.force_down_if_confidence_below :=
    lt_of_le_of_lt hle hc
  rw [fsmUpdate_force_active cfg s ts score conf ⟨hf, hcl⟩]
  rw [if_neg (by simp [hs])]
  rw [hs]

/-- Witness for C10: a Down-state update with confidence 1/4 below a 1/2
force-down threshold leaves the state (recovery counter included) unchanged
even though the score 1 is above `down_exit`. -/
theorem fsm_down_low_confidence_frame_witness :
    fsmUpdate
        { healthy_enter := 18/25, healthy_exit := 33/50, down_enter := 7/20
          down_exit := 9/20, healthy_enter_N := 6, healthy_exit_N := 6
          down_enter_N := 3, down_exit_N := 5, min_dwell_sec := 5
          min_confidence_for_promotion := 3/10
          force_down_if_confidence_below := 1/2 }
        { status := IfStatus.Down, cnt_above_down_exit := 2
          last_transition_ts := some 1 }
        9 1 (1/4) =
      ({ status := IfStatus.Down, cnt_above_down_exit := 2
         last_transition_ts := some 1 },
       { status := IfStatus.Down, transitioned := false }) :=
  fsm_down_low_confidence_frame
    { healthy_enter := 18/25, healthy_exit := 33/50, down_enter := 7/20
      down_exit := 9/20, healthy_enter_N := 6, healthy_exit_N := 6
      down_enter_N := 3, down_exit_N := 5, min_dwell_sec := 5
      min_confidence_for_promotion := 3/10
      force_down_if_confidence_below := 1/2 }
    { status := IfStatus.Down, cnt_above_down_exit := 2
      last_transition_ts := some 1 }
    9 1 (1/4) rfl (by norm_num) (by norm_num) (by norm_num)

/-- C3 (counterexample): the guard comparisons are NOT non-strict at the
threshold values.  With the reference thresholds, an update at exactly
`score = healthy_exit` in Healthy resets the exit counter to 0 (the claim
would make it 1), and an update at exactly `score = healthy_enter` with full
confidence in Degraded resets the promotion counter to 0 (the claim would
make it 1). -/
theorem fsm_threshold_nonstrict_counterexample :
    (fsmUpdate
        { healthy_enter := 18/25, healthy_exit := 33/50, down_enter := 7/20
          down_exit := 9/20, healthy_enter_N := 6, healthy_exit_N := 6
          down_enter_N := 3, down_exit_N := 5, min_dwell_sec := 5
          min_confidence_for_promotion := 3/10
          force_down_if_confidence_below := -1 }
        { status := IfStatus.Healthy } 10 (33/50) 1).1.cnt_below_healthy_exit
      = 0 ∧
    (fsmUpdate
        { healthy_enter := 18/25, healthy_exit := 33/50, down_enter := 7/20
          down_exit := 9/20, healthy_enter_N := 6, healthy_exit_N := 6
          down_enter_N := 3, down_exit_N := 5, min_dwell_sec := 5
          min_confidence_for_promotion := 3/10
          force_down_if_confidence_below := -1 }
        { status := IfStatus.Degraded } 10 (18/25) 1).1.cnt_above_healthy_enter
      = 0 := by
  with_unfolding_all decide

/-- C3 (amended): the evidence guards compare strictly on the score: in
Healthy the exit counter increments exactly when `score < healthy_exit`
(resetting to 0 otherwise), and in Degraded the promotion counter increments
exactly when `confidence ≥ min_confidence_for_promotion` (non-strict) and
`score > healthy_enter` (strict), the drop counter exactly when
`score < down_enter`; stated for non-transitioning updates outside the
force-down fast-path, on the clamped inputs. -/
theorem fsm_guards_strict (cfg : FsmConfig) (s : FsmState) (ts : ℤ)
    (score conf : ℚ)
    (hf : ¬(cfg.force_down_if_confidence_below ≥ 0 ∧
      clamp01 conf < cfg.force_down_if_confidence_below))
    (hnt : (fsmUpdate cfg s ts score conf).2.transitioned = false) :
    (s.status = IfStatus.Healthy →
      (fsmUpdate cfg s ts score conf).1.cnt_below_healthy_exit =
        if clamp01 score < cfg.healthy_exit
        then s.cnt_below_healthy_exit + 1 else 0) ∧
    (s.status = IfStatus.Degraded →
      ((fsmUpdate cfg s ts score conf).1.cnt_above_healthy_enter =
        if clamp01 conf ≥ cfg.min_confidence_for_promotion ∧
           clamp01 score > cfg.healthy_enter
        then s.cnt_above_healthy_enter + 1 else 0) ∧
      ((fsmUpdate cfg s ts score conf).1.cnt_below_down_enter =
        if clamp01 score < cfg.down_enter
        then s.cnt_below_down_enter + 1 else 0)) := by
  constructor
  · intro hs
    rw [fsmUpdate_healthy cfg s ts score conf hs hf] at hnt ⊢
    simp only [fsmTransition] at hnt ⊢
    split_ifs at hnt ⊢ <;> simp_all
  · intro hs
    rw [fsmUpdate_degraded cfg s ts score conf hs hf] at hnt ⊢
    simp only [fsmTransition] at hnt ⊢
    split_ifs at hnt ⊢ <;> simp_all

/-- Witness for C3 (amended): in Healthy with 2 accumulated ticks, a score
1/2 strictly below `healthy_exit = 33/50` increments the exit counter to 3. -/
theorem fsm_guards_strict_witness :
    (fsmUpdate
        { healthy_enter := 18/25, healthy_exit := 33/50, down_enter := 7/20
          down_exit := 9/20, healthy_enter_N := 6, healthy_exit_N := 6
          down_enter_N := 3, down_exit_N := 5, min_dwell_sec := 5
          min_confidence_for_promotion := 3/10
          force_down_if_confidence_below := -1 }
        { status := IfStatus.Healthy, cnt_below_healthy_exit := 2 }
        10 (1/2) 1).1.cnt_below_healthy_exit = 3 := by
  have h := (fsm_guards_strict
    { healthy_enter := 18/25, healthy_exit := 33/50, down_enter := 7/20
      down_exit := 9/20, healthy_enter_N := 6, healthy_exit_N := 6
      down_enter_N := 3, down_exit_N := 5, min_dwell_sec := 5
      min_confidence_for_promotion := 3/10
      force_down_if_confidence_below := -1 }
    { status := IfStatus.Healthy, cnt_below_healthy_exit := 2 }
    10 (1/2) 1
    (by with_unfolding_all decide)
    (by with_unfolding_all decide)).1 rfl
  rw [h]
  rw [if_pos (by with_unfolding_all decide)]

/-- Dwell only reads `last_transition_ts`, so counter updates preserve it. -/
theorem dwell_ok_counters (cfg : FsmConfig) (s s' : FsmState) (ts : ℤ)
    (h : s.last_transition_ts = s'.last_transition_ts) :
    dwell_ok cfg s ts = dwell_ok cfg s' ts := by
  unfold dwell_ok
  rw [h]

/-- Trace invariant: the transition events of any run are dwell-separated
(except into Down), and the first event respects the incoming
`last_transition_ts`. -/
theorem runFsmEvents_chain (cfg : FsmConfig) :
    ∀ (inputs : List (ℤ × ℚ × ℚ)) (s : FsmState),
    List.Chain' (fun e1 e2 : ℤ × IfStatus => e2.2 ≠ IfStatus.Down →
        cfg.min_dwell_sec ≤ e2.1 - e1.1) (runFsmEvents cfg s inputs).2 ∧
    (∀ e, (runFsmEvents cfg s inputs).2.head? = some e →
      e.2 ≠ IfStatus.Down → ∀ t0, s.last_transition_ts = some t0 →
      cfg.min_dwell_sec ≤ e.1 - t0) := by
  intro inputs
  induction inputs with
  | nil =>
      intro s
      constructor
      · simp [runFsmEvents]
      · intro e he
        simp [runFsmEvents] at he
  | cons i rest ih =>
      intro s
      have hrun : runFsmEvents cfg s (i :: rest) =
          ((runFsmEvents cfg (fsmUpdate cfg s i.1 i.2.1 i.2.2).1 rest).1,
            (if (fsmUpdate cfg s i.1 i.2.1 i.2.2).2.transitioned then
              [(i.1, (fsmUpdate cfg s i.1 i.2.1 i.2.2).2.status)] else []) ++
            (runFsmEvents cfg (fsmUpdate cfg s i.1 i.2.1 i.2.2).1 rest).2) :=
        rfl
      by_cases ht : (fsmUpdate cfg s i.1 i.2.1 i.2.2).2.transitioned = true
      · have hlast' :
            (fsmUpdate cfg s i.1 i.2.1 i.2.2).1.last_transition_ts =
              some i.1 := by
          rw [fsmUpdate_trans_state cfg s i.1 i.2.1 i.2.2 ht]
        constructor
        · rw [hrun]
          simp only [ht, if_true, List.singleton_append]
          rw [List.chain'_cons']
          constructor
          · intro b hb hbDown
            exact (ih (fsmUpdate cfg s i.1 i.2.1 i.2.2).1).2 b
              (by simpa using hb) hbDown i.1 hlast'
          · exact (ih (fsmUpdate cfg s i.1 i.2.1 i.2.2).1).1
        · intro e he heDown t0 hlast
          rw [hrun] at he
          simp only [ht, if_true, List.singleton_append, List.head?_cons,
            Option.some.injEq] at he
          have hdw : dwell_ok cfg s i.1 = true :=
            fsmUpdate_trans_nonDown_dwell cfg s i.1 i.2.1 i.2.2 ht
              (by rw [← he] at heDown; exact fun hc => heDown (by simp [hc]))
          rw [← he]
          simp only []
          unfold dwell_ok at hdw
          rw [hlast] at hdw
          simpa using of_decide_eq_true hdw
      · have ht' : (fsmUpdate cfg s i.1 i.2.1 i.2.2).2.transitioned = false :=
          by simpa using ht
        have hlast' :
            (fsmUpdate cfg s i.1 i.2.1 i.2.2).1.last_transition_ts =
              s.last_transition_ts :=
          fsmUpdate_no_trans_last cfg s i.1 i.2.1 i.2.2 ht'
        constructor
        · rw [hrun]
          simp only [ht', if_false, List.nil_append]
          exact (ih (fsmUpdate cfg s i.1 i.2.1 i.2.2).1).1
        · intro e he heDown t0 hlast
          rw [hrun] at he
          simp only [ht', if_false, List.nil_append] at he
          exact (ih (fsmUpdate cfg s i.1 i.2.1 i.2.2).1).2 e he heDown t0
            (by rw [hlast', hlast])

/-- C4: over any run of FSM updates from the initial state, no two
consecutive transitions are closer than `min_dwell_sec` except transitions
into Down; a dwell-suppressed transition's counter keeps accumulating (shown
for all three dwell-gated transitions); and `dwell_ok` holds iff no
transition has happened yet or `ts_now − last_transition_ts ≥ min_dwell_sec`. -/
theorem fsm_dwell_property (cfg : FsmConfig) :
    (∀ (st : IfStatus) (inputs : List (ℤ × ℚ × ℚ)),
      List.Chain' (fun e1 e2 : ℤ × IfStatus => e2.2 ≠ IfStatus.Down →
        cfg.min_dwell_sec ≤ e2.1 - e1.1)
        (runFsmEvents cfg { status := st } inputs).2) ∧
    (∀ (s : FsmState) (ts : ℤ) (score conf : ℚ),
      ¬(cfg.force_down_if_confidence_below ≥ 0 ∧
        clamp01 conf < cfg.force_down_if_confidence_below) →
      dwell_ok cfg s ts = false →
      ((s.status = IfStatus.Healthy → clamp01 score < cfg.healthy_exit →
        (fsmUpdate cfg s ts score conf).2.transitioned = false ∧
        (fsmUpdate cfg s ts score conf).1.cnt_below_healthy_exit =
          s.cnt_below_healthy_exit + 1) ∧
      (s.status = IfStatus.Down → clamp01 score > cfg.down_exit →
        (fsmUpdate cfg s ts score conf).2.transitioned = false ∧
        (fsmUpdate cfg s ts score conf).1.cnt_above_down_exit =
          s.cnt_above_down_exit + 1) ∧
      (s.status = IfStatus.Degraded → 1 ≤ cfg.down_enter_N →
        cfg.down_enter ≤ cfg.healthy_enter →
        clamp01 conf ≥ cfg.min_confidence_for_promotion →
        clamp01 score > cfg.healthy_enter →
        (fsmUpdate cfg s ts score conf).2.transitioned = false ∧
        (fsmUpdate cfg s ts score conf).1.cnt_above_healthy_enter =
          s.cnt_above_healthy_enter + 1))) ∧
    (∀ (s : FsmState) (ts : ℤ), dwell_ok cfg s ts = true ↔
      (s.last_transition_ts = none ∨
        ∃ t0, s.last_transition_ts = some t0 ∧
          cfg.min_dwell_sec ≤ ts - t0)) := by
  refine ⟨?_, ?_, ?_⟩
  · intro st inputs
    exact (runFsmEvents_chain cfg inputs { status := st }).1
  · intro s ts score conf hf hdw
    refine ⟨?_, ?_, ?_⟩
    · intro hs hscore
      rw [fsmUpdate_healthy cfg s ts score conf hs hf]
      have hcond : ¬((if clamp01 score < cfg.healthy_exit
          then s.cnt_below_healthy_exit + 1 else 0) ≥ cfg.healthy_exit_N ∧
          dwell_ok cfg { s with cnt_below_healthy_exit :=
            (if clamp01 score < cfg.healthy_exit
             then s.cnt_below_healthy_exit + 1 else 0) } ts = true) := by
        intro hc
        have h2 : dwell_ok cfg s ts = true := hc.2
        rw [hdw] at h2
        exact Bool.false_ne_true h2
      simp only [if_neg hcond]
      exact ⟨trivial, if_pos hscore⟩
    · intro hs hscore
      rw [fsmUpdate_down cfg s ts score conf hs hf]
      have hcond : ¬((if clamp01 score > cfg.down_exit
          then s.cnt_above_down_exit + 1 else 0) ≥ cfg.down_exit_N ∧
          dwell_ok cfg { s with cnt_above_down_exit :=
            (if clamp01 score > cfg.down_exit
             then s.cnt_above_down_exit + 1 else 0) } ts = true) := by
        intro hc
        have h2 : dwell_ok cfg s ts = true := hc.2
        rw [hdw] at h2
        exact Bool.false_ne_true h2
      simp only [if_neg hcond]
      exact ⟨trivial, if_pos hscore⟩
    · intro hs hN hde hconf hscore
      rw [fsmUpdate_degraded cfg s ts score conf hs hf]
      have hup : (clamp01 conf ≥ cfg.min_confidence_for_promotion ∧
          clamp01 score > cfg.healthy_enter) := ⟨hconf, hscore⟩
      have hdn : ¬(clamp01 score < cfg.down_enter) := by
        intro hlt
        exact absurd (lt_of_lt_of_le hlt hde) (not_lt.mpr (le_of_lt hscore))
      simp only [if_pos hup, if_neg hdn]
      have hcond1 : ¬((0 : ℕ) ≥ cfg.down_enter_N) := by omega
      rw [if_neg hcond1]
      have hcond2 : ¬((s.cnt_above_healthy_enter + 1) ≥ cfg.healthy_enter_N ∧
          dwell_ok cfg { s with
            cnt_above_healthy_enter := s.cnt_above_healthy_enter + 1
            cnt_below_down_enter := 0 } ts = true) := by
        intro hc
        have h2 : dwell_ok cfg s ts = true := hc.2
        rw [hdw] at h2
        exact Bool.false_ne_true h2
      rw [if_neg hcond2]
      exact ⟨rfl, rfl⟩
  · intro s ts
    rcases h : s.last_transition_ts with _ | t0 <;> simp [dwell_ok, h]

/-- Witness for C4: with the reference configuration, the run
score-0 at t=1..3 (Degraded→Down at t=3) then score-1 at t=4..8 (Down→Degraded
at t=8, exactly 5 = min_dwell later) yields dwell-separated events, and a
dwell-suppressed Healthy-exit tick increments its counter without
transitioning. -/
theorem fsm_dwell_property_witness :
    List.Chain' (fun e1 e2 : ℤ × IfStatus => e2.2 ≠ IfStatus.Down →
      (5 : ℤ) ≤ e2.1 - e1.1)
      (runFsmEvents
        { healthy_enter := 18/25, healthy_exit := 33/50, down_enter := 7/20
          down_exit := 9/20, healthy_enter_N := 6, healthy_exit_N := 6
          down_enter_N := 3, down_exit_N := 5, min_dwell_sec := 5
          min_confidence_for_promotion := 3/10
          force_down_if_confidence_below := -1 }
        { status := IfStatus.Degraded }
        [(1, 0, 1), (2, 0, 1), (3, 0, 1), (4, 1, 1), (5, 1, 1), (6, 1, 1),
          (7, 1, 1), (8, 1, 1)]).2 ∧
    ((fsmUpdate
        { healthy_enter := 18/25, healthy_exit := 33/50, down_enter := 7/20
          down_exit := 9/20, healthy_enter_N := 6, healthy_exit_N := 6
          down_enter_N := 3, down_exit_N := 5, min_dwell_sec := 5
          min_confidence_for_promotion := 3/10
          force_down_if_confidence_below := -1 }
        { status := IfStatus.Healthy, cnt_below_healthy_exit := 7
          last_transition_ts := some 100 }
        102 (1/2) 1).2.transitioned = false ∧
      (fsmUpdate
        { healthy_enter := 18/25, healthy_exit := 33/50, down_enter := 7/20
          down_exit := 9/20, healthy_enter_N := 6, healthy_exit_N := 6
          down_enter_N := 3, down_exit_N := 5, min_dwell_sec := 5
          min_confidence_for_promotion := 3/10
          force_down_if_confidence_below := -1 }
        { status := IfStatus.Healthy, cnt_below_healthy_exit := 7
          last_transition_ts := some 100 }
        102 (1/2) 1).1.cnt_below_healthy_exit = 8) := by
  constructor
  · exact (fsm_dwell_property
      { healthy_enter := 18/25, healthy_exit := 33/50, down_enter := 7/20
        down_exit := 9/20, healthy_enter_N := 6, healthy_exit_N := 6
        down_enter_N := 3, down_exit_N := 5, min_dwell_sec := 5
        min_confidence_for_promotion := 3/10
        force_down_if_confidence_below := -1 }).1 IfStatus.Degraded
      [(1, 0, 1), (2, 0, 1), (3, 0, 1), (4, 1, 1), (5, 1, 1), (6, 1, 1),
        (7, 1, 1), (8, 1, 1)]
  · exact ((fsm_dwell_property
      { healthy_enter := 18/25, healthy_exit := 33/50, down_enter := 7/20
        down_exit := 9/20, healthy_enter_N := 6, healthy_exit_N := 6
        down_enter_N := 3, down_exit_N := 5, min_dwell_sec := 5
        min_confidence_for_promotion := 3/10
        force_down_if_confidence_below := -1 }).2.1
      { status := IfStatus.Healthy, cnt_below_healthy_exit := 7
        last_transition_ts := some 100 }
      102 (1/2) 1
      (by with_unfolding_all decide)
      (by with_unfolding_all decide)).1 rfl
      (by with_unfolding_all decide)

/-! ### Tracker lemmas for empty-window runs -/

theorem clamp01_zero : clamp01 0 = 0 := by
  simp [clamp01]

theorem note_time_slots (w : RollingWindow) (ts : ℤ) :
    (w.note_time ts).slots = w.slots := by
  rcases w with ⟨nt, sl⟩
  rcases nt with _ | n
  · rfl
  · unfold RollingWindow.note_time
    dsimp only
    split_ifs <;> rfl

theorem summary_expected (w : RollingWindow) : w.summary.expected = 45 := by
  unfold RollingWindow.summary
  rcases w.newest_ts with _ | n <;> rfl

theorem summary_count_empty (w : RollingWindow)
    (h : w.slots = fun _ => ({} : Slot)) : w.summary.count = 0 := by
  unfold RollingWindow.summary
  rcases w.newest_ts with _ | n
  · rfl
  · simp [RollingWindow.included, h]

theorem cap_of_zero (cfg : AgentConfig) (conf : ℚ)
    (hcap : 0 ≤ cfg.score.cap_max_score_when_low_conf) :
    apply_confidence_cap cfg 0 conf = 0 := by
  unfold apply_confidence_cap
  split_ifs <;> simp [min_eq_left hcap]

theorem compute_ewma_zero (cfg : AgentConfig) :
    compute_ewma_score cfg 0 0 = 0 := by
  unfold compute_ewma_score
  split_ifs with h
  · exact absurd h.2 (lt_irrefl 0)
  · simp [clamp01]

/-- One `note_time` tick on a tracker whose window holds no valid sample:
scores stay 0, the FSM advances on `(score, confidence) = (0, 0)`, and a
transition event is queued exactly when the FSM transitions. -/
theorem note_time_empty_step (cfg : AgentConfig) (t : TrackerState) (ts : ℤ)
    (hslots : t.window.slots = fun _ => ({} : Slot))
    (hew : t.score_ewma = 0)
    (hcap : 0 ≤ cfg.score.cap_max_score_when_low_conf) :
    (t.note_time cfg ts).window.slots = (fun _ => ({} : Slot)) ∧
    (t.note_time cfg ts).score_ewma = 0 ∧
    (t.note_time cfg ts).fsm = (fsmUpdate cfg.fsm t.fsm ts 0 0).1 ∧
    (t.note_time cfg ts).last_transition =
      (if (fsmUpdate cfg.fsm t.fsm ts 0 0).2.transitioned = true ∧
          t.fsm.status ≠ (fsmUpdate cfg.fsm t.fsm ts 0 0).2.status then
        some { ts := ts, src := t.fsm.status
               dst := (fsmUpdate cfg.fsm t.fsm ts 0 0).2.status }
      else t.last_transition) := by
  have hslots1 : (t.window.note_time ts).slots = fun _ => ({} : Slot) := by
    rw [note_time_slots]; exact hslots
  have hcount : (t.window.note_time ts).summary.count = 0 :=
    summary_count_empty _ hslots1
  have hexp : (t.window.note_time ts).summary.expected = 45 :=
    summary_expected _
  unfold TrackerState.note_time TrackerState.recompute
  simp only [hslots1, hcount, hexp]
  have hconf : (if (0 : ℕ) < 45 then ((0 : ℕ) : ℚ) / ((45 : ℕ) : ℚ) else 0)
      = (0 : ℚ) := by norm_num
  rw [hconf]
  have havg : compute_avg_score cfg (t.window.note_time ts).summary = 0 := by
    unfold compute_avg_score
    rw [hcount]
    simp
  rw [havg]
  rw [cap_of_zero cfg 0 hcap]
  have hewma : (if !t.ewma_init then (0 : ℚ)
      else compute_ewma_score cfg t.score_ewma 0) = 0 := by
    rcases t.ewma_init
    · simp
    · simp [hew, compute_ewma_zero]
  rw [hewma]
  have hused : (if cfg.score.useEwma then (0 : ℚ) else 0) = 0 := ite_self 0
  rw [hused]
  refine ⟨?_, ?_, ?_, ?_⟩ <;> trivial

/-- FSM step on `(score, confidence) = (0, 0)` from Degraded with the
drop counter at `k`: the drop counter advances (or the Degraded→Down
transition fires at the confirmation threshold). -/
theorem fsm_step_degraded_zero (cfg : FsmConfig) (k : ℕ) (ts : ℤ)
    (hforce : cfg.force_down_if_confidence_below < 0)
    (hhe : 0 ≤ cfg.healthy_enter) (hde : 0 < cfg.down_enter)
    (hN2 : 1 ≤ cfg.healthy_enter_N) :
    fsmUpdate cfg { status := IfStatus.Degraded, cnt_below_down_enter := k }
        ts 0 0 =
      if cfg.down_enter_N ≤ k + 1 then
        ({ status := IfStatus.Down, last_transition_ts := some ts },
          { status := IfStatus.Down, transitioned := true })
      else
        ({ status := IfStatus.Degraded, cnt_below_down_enter := k + 1 },
          { status := IfStatus.Degraded, transitioned := false }) := by
  have hf : ¬(cfg.force_down_if_confidence_below ≥ 0 ∧
      clamp01 0 < cfg.force_down_if_confidence_below) :=
    fun hc => absurd hc.1 (not_le.mpr hforce)
  rw [fsmUpdate_degraded cfg _ ts 0 0 rfl hf]
  rw [clamp01_zero]
  have hup : ¬((0 : ℚ) ≥ cfg.min_confidence_for_promotion ∧
      (0 : ℚ) > cfg.healthy_enter) :=
    fun hc => absurd hc.2 (not_lt.mpr hhe)
  simp only [if_neg hup, if_pos hde]
  by_cases hk : cfg.down_enter_N ≤ k + 1
  · simp only [ge_iff_le, if_pos hk]
    rfl
  · simp only [ge_iff_le, if_neg hk]
    split_ifs with hpr
    · exact absurd hpr.1 (by omega)
    · rfl

/-- FSM step on `(score, confidence) = (0, 0)` from Down: nothing moves. -/
theorem fsm_step_down_zero (cfg : FsmConfig) (ts tN : ℤ)
    (hforce : cfg.force_down_if_confidence_below < 0)
    (hdx : 0 ≤ cfg.down_exit) (hN3 : 1 ≤ cfg.down_exit_N) :
    fsmUpdate cfg { status := IfStatus.Down, last_transition_ts := some tN }
        ts 0 0 =
      ({ status := IfStatus.Down, last_transition_ts := some tN },
        { status := IfStatus.Down, transitioned := false }) := by
  have hf : ¬(cfg.force_down_if_confidence_below ≥ 0 ∧
      clamp01 0 < cfg.force_down_if_confidence_below) :=
    fun hc => absurd hc.1 (not_le.mpr hforce)
  rw [fsmUpdate_down cfg _ ts 0 0 rfl hf]
  rw [clamp01_zero]
  simp only [if_neg (not_lt.mpr hdx)]
  split_ifs with hpr
  · exact absurd hpr.1 (by omega)
  · rfl

/-- Invariant of a run of `note_time` ticks on a tracker that never received
a sample: the window stays empty, scores stay 0, and the FSM accumulates
Degraded→Down evidence until it drops to Down at the `down_enter_N`-th tick. -/
theorem runNote_empty_invariant (cfg : AgentConfig)
    (hforce : cfg.fsm.force_down_if_confidence_below < 0)
    (hcap : 0 ≤ cfg.score.cap_max_score_when_low_conf)
    (hhe : 0 ≤ cfg.fsm.healthy_enter) (hde : 0 < cfg.fsm.down_enter)
    (hdx : 0 ≤ cfg.fsm.down_exit) (hN1 : 1 ≤ cfg.fsm.down_enter_N)
    (hN2 : 1 ≤ cfg.fsm.healthy_enter_N) (hN3 : 1 ≤ cfg.fsm.down_exit_N)
    (tss : List ℤ) :
    (runOps cfg {} (tss.map TrackerOp.note)).window.slots =
      (fun _ => ({} : Slot)) ∧
    (runOps cfg {} (tss.map TrackerOp.note)).score_ewma = 0 ∧
    ((tss.length < cfg.fsm.down_enter_N ∧
      (runOps cfg {} (tss.map TrackerOp.note)).fsm =
        { status := IfStatus.Degraded, cnt_below_down_enter := tss.length } ∧
      (runOps cfg {} (tss.map TrackerOp.note)).last_transition = none) ∨
    (cfg.fsm.down_enter_N ≤ tss.length ∧
      ∃ tN, (runOps cfg {} (tss.map TrackerOp.note)).fsm =
        { status := IfStatus.Down, last_transition_ts := some tN } ∧
      (runOps cfg {} (tss.map TrackerOp.note)).last_transition =
        some { ts := tN, src := IfStatus.Degraded, dst := IfStatus.Down })) := by
  induction tss using List.reverseRecOn with
  | nil =>
      refine ⟨rfl, rfl, Or.inl ⟨by simp only [List.length_nil]; omega, rfl,
        rfl⟩⟩
  | append_singleton tss ts ih =>
      obtain ⟨hslots, hew, hdisj⟩ := ih
      have hrun : runOps cfg {} ((tss ++ [ts]).map TrackerOp.note) =
          TrackerState.note_time cfg
            (runOps cfg {} (tss.map TrackerOp.note)) ts := by
        rw [List.map_append, runOps, List.foldl_append]
        rfl
      have hstep := note_time_empty_step cfg
        (runOps cfg {} (tss.map TrackerOp.note)) ts hslots hew hcap
      rw [hrun]
      refine ⟨hstep.1, hstep.2.1, ?_⟩
      rcases hdisj with ⟨hlen, hfsm, hlt⟩ | ⟨hlen, tN, hfsm, hlt⟩
      · have hupd := fsm_step_degraded_zero cfg.fsm tss.length ts hforce hhe
          hde hN2
        rw [hfsm] at hstep
        by_cases hk : cfg.fsm.down_enter_N ≤ tss.length + 1
        · refine Or.inr ⟨by simpa using hk, ts, ?_, ?_⟩
          · rw [hstep.2.2.1, hupd, if_pos hk]
          · rw [hstep.2.2.2, hupd, if_pos hk]
            simp
        · refine Or.inl ⟨by simpa using hk, ?_, ?_⟩
          · rw [hstep.2.2.1, hupd, if_neg hk]
            simp
          · rw [hstep.2.2.2, hupd, if_neg hk]
            rw [if_neg (by simp)]
            exact hlt
      · have hupd := fsm_step_down_zero cfg.fsm ts tN hforce hdx hN3
        rw [hfsm] at hstep
        refine Or.inr ⟨by simp; omega, tN, ?_, ?_⟩
        · rw [hstep.2.2.1, hupd]
        · rw [hstep.2.2.2, hupd]
          rw [if_neg (by simp)]
          exact hlt

/-- C1 (counterexample): with the reference configuration, a tracker that has
never received a sample transitions Degraded→Down at the third `note_time`
tick (the empty window yields score 0, which is drop evidence), contradicting
"the FSM status is still Degraded and no TransitionEvent has ever been
produced". -/
theorem tracker_empty_ticks_counterexample :
    (runOps specDefaultConfig {}
      [TrackerOp.note 1, TrackerOp.note 2, TrackerOp.note 3]).fsm.status =
      IfStatus.Down ∧
    (runOps specDefaultConfig {}
      [TrackerOp.note 1, TrackerOp.note 2, TrackerOp.note 3]).last_transition =
      some { ts := 3, src := IfStatus.Degraded, dst := IfStatus.Down } := by
  with_unfolding_all decide

/-- C1 (amended): on a tracker that never received a sample, `note_time`
ticks leave the FSM in Degraded with no transition event only while fewer
than `down_enter_N` ticks have happened; from the `down_enter_N`-th tick on,
the FSM is in Down and a Degraded→Down transition event has been produced
(score 0 of the empty window counts as Degraded→Down evidence). -/
theorem tracker_empty_ticks_fsm (cfg : AgentConfig)
    (hforce : cfg.fsm.force_down_if_confidence_below < 0)
    (hcap : 0 ≤ cfg.score.cap_max_score_when_low_conf)
    (hhe : 0 ≤ cfg.fsm.healthy_enter) (hde : 0 < cfg.fsm.down_enter)
    (hdx : 0 ≤ cfg.fsm.down_exit) (hN1 : 1 ≤ cfg.fsm.down_enter_N)
    (hN2 : 1 ≤ cfg.fsm.healthy_enter_N) (hN3 : 1 ≤ cfg.fsm.down_exit_N)
    (tss : List ℤ) :
    (tss.length < cfg.fsm.down_enter_N →
      (runOps cfg {} (tss.map TrackerOp.note)).fsm.status =
        IfStatus.Degraded ∧
      (runOps cfg {} (tss.map TrackerOp.note)).last_transition = none) ∧
    (cfg.fsm.down_enter_N ≤ tss.length →
      (runOps cfg {} (tss.map TrackerOp.note)).fsm.status = IfStatus.Down ∧
      ∃ ev, (runOps cfg {} (tss.map TrackerOp.note)).last_transition =
          some ev ∧ ev.src = IfStatus.Degraded ∧ ev.dst = IfStatus.Down) := by
  have h := runNote_empty_invariant cfg hforce hcap hhe hde hdx hN1 hN2 hN3 tss
  rcases h.2.2 with ⟨hlen, hfsm, hlt⟩ | ⟨hlen, tN, hfsm, hlt⟩
  · refine ⟨fun _ => ⟨by rw [hfsm], hlt⟩, fun hc => absurd hc (by omega)⟩
  · refine ⟨fun hc => absurd hc (by omega), fun _ => ⟨by rw [hfsm], ?_⟩⟩
    exact ⟨_, hlt, rfl, rfl⟩

/-- Witness for C1 (amended): with the reference configuration
(`down_enter_N = 3`), two empty ticks leave the tracker Degraded and three
empty ticks leave it Down. -/
theorem tracker_empty_ticks_fsm_witness :
    (runOps specDefaultConfig {}
      ([1, 2].map TrackerOp.note)).fsm.status = IfStatus.Degraded ∧
    (runOps specDefaultConfig {}
      ([1, 2, 3].map TrackerOp.note)).fsm.status = IfStatus.Down := by
  constructor
  · exact ((tracker_empty_ticks_fsm specDefaultConfig
      (by norm_num [specDefaultConfig]) (by norm_num [specDefaultConfig])
      (by norm_num [specDefaultConfig]) (by norm_num [specDefaultConfig])
      (by norm_num [specDefaultConfig]) (by norm_num [specDefaultConfig])
      (by norm_num [specDefaultConfig]) (by norm_num [specDefaultConfig])
      [1, 2]).1 (by norm_num [specDefaultConfig])).1
  · exact ((tracker_empty_ticks_fsm specDefaultConfig
      (by norm_num [specDefaultConfig]) (by norm_num [specDefaultConfig])
      (by norm_num [specDefaultConfig]) (by norm_num [specDefaultConfig])
      (by norm_num [specDefaultConfig]) (by norm_num [specDefaultConfig])
      (by norm_num [specDefaultConfig]) (by norm_num [specDefaultConfig])
      [1, 2, 3]).2 (by norm_num [specDefaultConfig])).1

/-- The confidence cap bounds its result when active. -/
theorem apply_cap_le (cfg : AgentConfig) (x c : ℚ)
    (hen : cfg.score.enable_confidence_cap = true)
    (hc : c < cfg.score.cap_confidence_threshold) :
    apply_confidence_cap cfg x c ≤ cfg.score.cap_max_score_when_low_conf := by
  unfold apply_confidence_cap
  rw [hen]
  simp only [Bool.not_true, Bool.false_eq_true, if_false]
  rw [if_neg (not_le.mpr hc)]
  exact min_le_right x _

/-- C2 (counterexample): with the cap enabled (threshold 1/45, cap 1/5) and
`use_ewma = true`, a perfect sample at ts=100 drives the EWMA to 1; the next
tick at ts=145 empties the window (confidence 0, below the threshold), yet
`score_used = 3/4`, far above the cap: the EWMA strategy is not constrained
by the cap. -/
theorem cap_ewma_counterexample :
    let cfg : AgentConfig :=
      { specDefaultConfig with score :=
          { specDefaultConfig.score with
              useEwma := true
              enable_confidence_cap := true
              cap_confidence_threshold := 1/45
              cap_max_score_when_low_conf := 1/5 } }
    let t1 := TrackerState.ingest cfg {} 100
      { rtt_ms := 10, throughput_mbps := 200, loss_pct := 0, jitter_ms := 0 }
    let t2 := TrackerState.note_time cfg t1 145
    t2.last_snapshot.confidence < cfg.score.cap_confidence_threshold ∧
    cfg.score.enable_confidence_cap = true ∧
    cfg.score.useEwma = true ∧
    t2.last_snapshot.score_used = 3/4 ∧
    cfg.score.cap_max_score_when_low_conf < t2.last_snapshot.score_used := by
  with_unfolding_all decide

/-- C2 (amended): in every recompute with `enable_confidence_cap` and
`confidence < cap_confidence_threshold`, the capped instantaneous score
(`score_raw`, which is also the EWMA input) is at most
`cap_max_score_when_low_conf`, and when `use_ewma = false` so is
`score_used`; with `use_ewma = true`, `score_used` is the EWMA output, which
may exceed the cap (see the counterexample). -/
theorem recompute_cap_bounds (cfg : AgentConfig) (t : TrackerState) (ts : ℤ)
    (hen : cfg.score.enable_confidence_cap = true)
    (hconf : ((t.window.summary.count : ℚ) / 45) <
      cfg.score.cap_confidence_threshold) :
    (t.recompute cfg ts).last_snapshot.score_raw ≤
      cfg.score.cap_max_score_when_low_conf ∧
    (cfg.score.useEwma = false →
      (t.recompute cfg ts).last_snapshot.score_used ≤
        cfg.score.cap_max_score_when_low_conf) := by
  have hexp : t.window.summary.expected = 45 := summary_expected _
  have hc : (if 0 < t.window.summary.expected then
      ((t.window.summary.count : ℕ) : ℚ) / ((t.window.summary.expected : ℕ) : ℚ)
      else 0) < cfg.score.cap_confidence_threshold := by
    rw [hexp]
    norm_num
    exact hconf
  unfold TrackerState.recompute
  simp only []
  constructor
  · exact apply_cap_le cfg _ _ hen hc
  · intro huse
    rw [huse]
    simp only [Bool.false_eq_true, if_false]
    exact apply_cap_le cfg _ _ hen hc

/-- Witness for C2 (amended): with the cap enabled (threshold 1/2, cap 1/5)
and `use_ewma = false`, a recompute on the empty window (confidence 0) keeps
both `score_raw` and `score_used` at or below the cap. -/
theorem recompute_cap_bounds_witness :
    (TrackerState.recompute
      { specDefaultConfig with score :=
          { specDefaultConfig.score with
              enable_confidence_cap := true
              cap_confidence_threshold := 1/2
              cap_max_score_when_low_conf := 1/5 } }
      {} 5).last_snapshot.score_raw ≤ 1/5 ∧
    (TrackerState.recompute
      { specDefaultConfig with score :=
          { specDefaultConfig.score with
              enable_confidence_cap := true
              cap_confidence_threshold := 1/2
              cap_max_score_when_low_conf := 1/5 } }
      {} 5).last_snapshot.score_used ≤ 1/5 := by
  have h := recompute_cap_bounds
    { specDefaultConfig with score :=
        { specDefaultConfig.score with
            enable_confidence_cap := true
            cap_confidence_threshold := 1/2
            cap_max_score_when_low_conf := 1/5 } }
    {} 5 rfl (by with_unfolding_all decide)
  exact ⟨h.1, h.2 rfl⟩

/-! ### Snapshot numeric invariants (C9) -/

theorem clamp01_nonneg (x : ℚ) : 0 ≤ clamp01 x := le_max_left 0 _

theorem clamp01_le_one (x : ℚ) : clamp01 x ≤ 1 :=
  max_le (by norm_num) (min_le_left 1 x)

theorem compute_avg_score_mem (cfg : AgentConfig) (s : Summary) :
    0 ≤ compute_avg_score cfg s ∧ compute_avg_score cfg s ≤ 1 := by
  unfold compute_avg_score
  split_ifs
  · exact ⟨le_refl 0, by norm_num⟩
  · exact ⟨clamp01_nonneg _, clamp01_le_one _⟩

theorem apply_cap_mem (cfg : AgentConfig) (x c : ℚ)
    (hcap : 0 ≤ cfg.score.cap_max_score_when_low_conf)
    (hx0 : 0 ≤ x) (hx1 : x ≤ 1) :
    0 ≤ apply_confidence_cap cfg x c ∧ apply_confidence_cap cfg x c ≤ 1 := by
  unfold apply_confidence_cap
  split_ifs
  · exact ⟨hx0, hx1⟩
  · exact ⟨hx0, hx1⟩
  · exact ⟨le_min hx0 hcap, le_trans (min_le_left _ _) hx1⟩

theorem compute_ewma_score_mem (cfg : AgentConfig) (p c : ℚ) :
    0 ≤ compute_ewma_score cfg p c ∧ compute_ewma_score cfg p c ≤ 1 := by
  unfold compute_ewma_score
  exact ⟨clamp01_nonneg _, clamp01_le_one _⟩

theorem summary_count_le (w : RollingWindow) : w.summary.count ≤ 45 := by
  rcases w with ⟨nt, sl⟩
  rcases nt with _ | n
  · exact Nat.zero_le 45
  · show (RollingWindow.included _ _ _).length ≤ 45
    calc (RollingWindow.included _ _ _).length
        ≤ ((List.finRange 45).map
            (RollingWindow.mk (some n) sl).slots).length :=
          List.length_filter_le _ _
      _ = 45 := by simp

theorem summary_missing_eq (w : RollingWindow) :
    w.summary.missing_rate = 1 - (w.summary.count : ℚ) / 45 := by
  rcases w with ⟨nt, sl⟩
  rcases nt with _ | n
  · norm_num [RollingWindow.summary]
  · rfl

theorem included_mem_nonneg (w : RollingWindow) (hw : WindowNonneg w)
    (oldest newest : ℤ) (s : Slot)
    (hs : s ∈ w.included oldest newest) : s.m.Nonneg := by
  unfold RollingWindow.included at hs
  have hs' := List.mem_filter.mp hs
  rcases List.mem_map.mp hs'.1 with ⟨i, _, rfl⟩
  exact hw i

theorem summary_avgs_nonneg (w : RollingWindow) (hw : WindowNonneg w) :
    0 ≤ w.summary.avg_rtt ∧ 0 ≤ w.summary.avg_tp ∧
    0 ≤ w.summary.avg_loss ∧ 0 ≤ w.summary.avg_jit := by
  rcases hnt : w.newest_ts with _ | n
  · unfold RollingWindow.summary
    rw [hnt]
    exact ⟨le_refl 0, le_refl 0, le_refl 0, le_refl 0⟩
  · have havg : ∀ f : Slot → ℚ, (∀ s : Slot, s.m.Nonneg → 0 ≤ f s) →
        (0 : ℚ) ≤ (if 0 < (w.included (n - (45 - 1)) n).length then
          ((w.included (n - (45 - 1)) n).map f).sum /
            ((w.included (n - (45 - 1)) n).length : ℚ) else 0) := by
      intro f hf
      split_ifs
      · apply div_nonneg
        · apply List.sum_nonneg
          intro x hx
          rcases List.mem_map.mp hx with ⟨s, hs, rfl⟩
          exact hf s (included_mem_nonneg w hw _ _ s hs)
        · positivity
      · exact le_refl 0
    unfold RollingWindow.summary
    rw [hnt]
    refine ⟨?_, ?_, ?_, ?_⟩
    · exact havg (fun s => s.m.rtt_ms) (fun s hs => hs.1)
    · exact havg (fun s => s.m.throughput_mbps) (fun s hs => hs.2.1)
    · exact havg (fun s => s.m.loss_pct) (fun s hs => hs.2.2.1)
    · exact havg (fun s => s.m.jitter_ms) (fun s hs => hs.2.2.2)

/-- One recompute on a window with non-negative metrics produces a snapshot
satisfying all the claimed numeric invariants. -/
theorem recompute_snapshot_bounds (cfg : AgentConfig) (t : TrackerState)
    (ts : ℤ) (hcap : 0 ≤ cfg.score.cap_max_score_when_low_conf)
    (hw : WindowNonneg t.window) :
    SnapBounds (t.recompute cfg ts).last_snapshot := by
  have hexp : t.window.summary.expected = 45 := summary_expected _
  have hcount : t.window.summary.count ≤ 45 := summary_count_le _
  have hconf0 : (0 : ℚ) ≤ (t.window.summary.count : ℚ) / 45 := by positivity
  have hconf1 : (t.window.summary.count : ℚ) / 45 ≤ 1 := by
    rw [div_le_one (by norm_num)]
    exact_mod_cast hcount
  have hconfeq : (if 0 < t.window.summary.expected then
      ((t.window.summary.count : ℕ) : ℚ) /
        ((t.window.summary.expected : ℕ) : ℚ) else 0) =
      (t.window.summary.count : ℚ) / 45 := by
    rw [hexp]
    norm_num
  have havg := summary_avgs_nonneg t.window hw
  have hraw := compute_avg_score_mem cfg t.window.summary
  have hcapm := apply_cap_mem cfg (compute_avg_score cfg t.window.summary)
    ((t.window.summary.count : ℚ) / 45)
    hcap hraw.1 hraw.2
  have hmiss := summary_missing_eq t.window
  unfold TrackerState.recompute
  unfold SnapBounds
  simp only []
  rw [hconfeq]
  refine ⟨hcapm.1, hcapm.2, ?_, ?_, ?_, ?_, ?_, ?_, ?_, ?_, ?_,
    havg.1, havg.2.1, havg.2.2.1, havg.2.2.2⟩
  · split_ifs <;>
      first
        | exact hcapm.1
        | exact (compute_ewma_score_mem cfg _ _).1
  · split_ifs <;>
      first
        | exact hcapm.2
        | exact (compute_ewma_score_mem cfg _ _).2
  · split_ifs <;>
      first
        | exact hcapm.1
        | exact (compute_ewma_score_mem cfg _ _).1
  · split_ifs <;>
      first
        | exact hcapm.2
        | exact (compute_ewma_score_mem cfg _ _).2
  · exact hconf0
  · exact hconf1
  · rw [hmiss]
    have : (0 : ℚ) ≤ 1 - (t.window.summary.count : ℚ) / 45 := by linarith
    exact this
  · rw [hmiss]
    have : (1 : ℚ) - (t.window.summary.count : ℚ) / 45 ≤ 1 := by linarith
    exact this
  · rw [hmiss]
    ring

theorem windowNonneg_initial : WindowNonneg ({} : RollingWindow) :=
  fun _ => ⟨le_refl 0, le_refl 0, le_refl 0, le_refl 0⟩

theorem windowNonneg_ingest (w : RollingWindow) (ts : ℤ) (m : Metrics)
    (hw : WindowNonneg w) (hm : m.Nonneg) :
    WindowNonneg (w.ingest ts m).1 := by
  rcases w with ⟨nt, sl⟩
  rw [ingest_eq]
  split_ifs
  · exact hw
  · intro i
    show ((Function.update sl (idx ts)
      { valid := true, ts := ts, m := m } : Fin 45 → Slot) i).m.Nonneg
    by_cases hi : i = idx ts
    · subst hi
      rw [Function.update_same]
      exact hm
    · rw [Function.update_noteq hi]
      exact hw i

theorem windowNonneg_note (w : RollingWindow) (ts : ℤ)
    (hw : WindowNonneg w) : WindowNonneg (w.note_time ts) := by
  intro i
  rw [note_time_slots]
  exact hw i

theorem fresh_ingest_accepted (ts : ℤ) (m : Metrics) :
    (({} : RollingWindow).ingest ts m).2 = true := by
  have h := ingest_eq none (fun _ => ({} : Slot)) ts m
  rw [h]
  rw [if_neg]
  simp only [ingestNewest]
  omega

theorem applyOp_window (cfg : AgentConfig) (t : TrackerState) (op : TrackerOp)
    (hw : WindowNonneg t.window) (hop : op.nonneg) :
    WindowNonneg (t.applyOp cfg op).window := by
  rcases op with ⟨ts, m⟩ | ts
  · show WindowNonneg (t.ingest cfg ts m).window
    unfold TrackerState.ingest
    rcases hr : (t.window.ingest ts m).2
    · simp only [hr]
      exact windowNonneg_ingest t.window ts m hw hop
    · simp only [hr]
      show WindowNonneg (TrackerState.recompute cfg _ _).window
      exact windowNonneg_ingest t.window ts m hw hop
  · show WindowNonneg (t.note_time cfg ts).window
    unfold TrackerState.note_time
    show WindowNonneg (TrackerState.recompute cfg _ _).window
    exact windowNonneg_note t.window ts hw

theorem applyOp_snap (cfg : AgentConfig) (t : TrackerState) (op : TrackerOp)
    (hcap : 0 ≤ cfg.score.cap_max_score_when_low_conf)
    (hw : WindowNonneg t.window) (hop : op.nonneg)
    (hs : SnapBounds t.last_snapshot) :
    SnapBounds (t.applyOp cfg op).last_snapshot := by
  rcases op with ⟨ts, m⟩ | ts
  · show SnapBounds (t.ingest cfg ts m).last_snapshot
    unfold TrackerState.ingest
    rcases hr : (t.window.ingest ts m).2
    · simp only [hr]
      exact hs
    · simp only [hr]
      exact recompute_snapshot_bounds cfg _ _ hcap
        (windowNonneg_ingest t.window ts m hw hop)
  · show SnapBounds (t.note_time cfg ts).last_snapshot
    unfold TrackerState.note_time
    exact recompute_snapshot_bounds cfg _ _ hcap
      (windowNonneg_note t.window ts hw)

theorem applyOp_snap_first (cfg : AgentConfig) (op : TrackerOp)
    (hcap : 0 ≤ cfg.score.cap_max_score_when_low_conf)
    (hop : op.nonneg) :
    SnapBounds ((TrackerState.applyOp cfg {} op)).last_snapshot := by
  rcases op with ⟨ts, m⟩ | ts
  · show SnapBounds (TrackerState.ingest cfg {} ts m).last_snapshot
    unfold TrackerState.ingest
    rcases hr : (({} : TrackerState).window.ingest ts m).2
    · exfalso
      have h2 : (({} : TrackerState).window.ingest ts m).2 = true :=
        fresh_ingest_accepted ts m
      rw [hr] at h2
      exact Bool.false_ne_true h2
    · simp only [hr]
      exact recompute_snapshot_bounds cfg _ _ hcap
        (windowNonneg_ingest _ ts m windowNonneg_initial hop)
  · show SnapBounds (TrackerState.note_time cfg {} ts).last_snapshot
    unfold TrackerState.note_time
    exact recompute_snapshot_bounds cfg _ _ hcap
      (windowNonneg_note _ ts windowNonneg_initial)

theorem runOps_inv (cfg : AgentConfig)
    (hcap : 0 ≤ cfg.score.cap_max_score_when_low_conf) :
    ∀ (ops : List TrackerOp) (t : TrackerState),
    WindowNonneg t.window → SnapBounds t.last_snapshot →
    (∀ op ∈ ops, op.nonneg) →
    WindowNonneg (runOps cfg t ops).window ∧
      SnapBounds (runOps cfg t ops).last_snapshot := by
  intro ops
  induction ops with
  | nil => exact fun t hw hs _ => ⟨hw, hs⟩
  | cons op rest ih =>
      intro t hw hs hnn
      have hop := hnn op (List.mem_cons_self _ _)
      exact ih (t.applyOp cfg op)
        (applyOp_window cfg t op hw hop)
        (applyOp_snap cfg t op hcap hw hop hs)
        (fun o ho => hnn o (List.mem_cons_of_mem _ ho))

/-- C9: after any nonempty sequence of `ingest`/`note_time` operations with
non-negative input metrics (and a non-negative configured cap), the tracker's
snapshot satisfies: all of `score_raw`, `score_smoothed`, `score_used`,
`confidence`, `missing_rate` lie in [0,1]; the four averages are
non-negative; and `missing_rate + confidence = 1` (exactly, in ℚ). -/
theorem snapshot_invariants (cfg : AgentConfig)
    (hcap : 0 ≤ cfg.score.cap_max_score_when_low_conf)
    (ops : List TrackerOp) (hne : ops ≠ [])
    (hnn : ∀ op ∈ ops, op.nonneg) :
    SnapBounds (runOps cfg {} ops).last_snapshot := by
  rcases ops with _ | ⟨op, rest⟩
  · exact absurd rfl hne
  · have hop := hnn op (List.mem_cons_self _ _)
    have hw1 : WindowNonneg ((TrackerState.applyOp cfg {} op).window) :=
      applyOp_window cfg {} op windowNonneg_initial hop
    have hs1 : SnapBounds ((TrackerState.applyOp cfg {} op).last_snapshot) :=
      applyOp_snap_first cfg op hcap hop
    exact (runOps_inv cfg hcap rest (TrackerState.applyOp cfg {} op) hw1 hs1
      (fun o ho => hnn o (List.mem_cons_of_mem _ ho))).2

/-- Witness for C9: a concrete two-operation run (one good sample, one empty
tick) under the reference configuration satisfies all snapshot bounds. -/
theorem snapshot_invariants_witness :
    SnapBounds (runOps specDefaultConfig {}
      [TrackerOp.ing 10
        { rtt_ms := 20, throughput_mbps := 180, loss_pct := 1/10
          jitter_ms := 3 },
       TrackerOp.note 20]).last_snapshot := by
  apply snapshot_invariants specDefaultConfig
    (by norm_num [specDefaultConfig])
    _ (by simp)
  intro op hop
  simp only [List.mem_cons, List.not_mem_nil, or_false] at hop
  rcases hop with rfl | rfl
  · exact ⟨by norm_num, by norm_num, by norm_num, by norm_num⟩
  · exact trivial

/-! ### Order-independence of the window (C7) -/

/-- Two distinct timestamps spanning at most the window width land on
distinct ring indices. -/
theorem idx_inj_window (a b M : ℤ) (ha1 : M - 44 ≤ a) (ha2 : a ≤ M)
    (hb1 : M - 44 ≤ b) (hb2 : b ≤ M) (hne : a ≠ b) : idx a ≠ idx b := by
  intro h
  have hv : (a % 45).toNat = (b % 45).toNat := congrArg Fin.val h
  omega

theorem summary_congr (w1 w2 : RollingWindow)
    (h1 : w1.newest_ts = w2.newest_ts) (h2 : w1.slots = w2.slots) :
    w1.summary = w2.summary := by
  rcases w1 with ⟨nt1, sl1⟩
  rcases w2 with ⟨nt2, sl2⟩
  simp only [] at h1 h2
  cases h1
  cases h2
  rfl

/-- Characterization of the window after ingesting a list of samples with
pairwise-distinct timestamps all within 45 seconds of a common bound `M`:
the window's state is a function of the set of samples, not their order. -/
theorem ingestAll_char (M : ℤ) :
    ∀ (l : List (ℤ × Metrics)),
    (∀ p ∈ l, M - 44 ≤ p.1 ∧ p.1 ≤ M) →
    l.Pairwise (fun p q => p.1 ≠ q.1) →
    ((l = [] ∧ ingestAll l = {}) ∨
      (∃ P, (ingestAll l).newest_ts = some P ∧ (∃ q ∈ l, q.1 = P) ∧
        ∀ p ∈ l, p.1 ≤ P)) ∧
    (∀ p ∈ l, (ingestAll l).slots (idx p.1) =
      { valid := true, ts := p.1, m := p.2 }) ∧
    (∀ i, (∀ p ∈ l, idx p.1 ≠ i) → (ingestAll l).slots i = ({} : Slot)) := by
  intro l
  induction l using List.reverseRecOn with
  | nil =>
      intro _ _
      refine ⟨Or.inl ⟨rfl, rfl⟩, ?_, ?_⟩
      · intro p hp
        exact absurd hp (List.not_mem_nil p)
      · intro i _
        rfl
  | append_singleton l p ih =>
      intro hb hp
      have hbl : ∀ q ∈ l, M - 44 ≤ q.1 ∧ q.1 ≤ M :=
        fun q hq => hb q (by simp [hq])
      have hbp : M - 44 ≤ p.1 ∧ p.1 ≤ M := hb p (by simp)
      have hpa := List.pairwise_append.mp hp
      have hdl : l.Pairwise (fun p q => p.1 ≠ q.1) := hpa.1
      have hdp : ∀ q ∈ l, q.1 ≠ p.1 :=
        fun q hq => hpa.2.2 q hq p (by simp)
      obtain ⟨hc1, hc2, hc3⟩ := ih hbl hdl
      have hfold : ingestAll (l ++ [p]) = ((ingestAll l).ingest p.1 p.2).1 := by
        unfold ingestAll
        rw [List.foldl_append]
        rfl
      have hPle : ∀ P, (ingestAll l).newest_ts = some P → P ≤ M := by
        intro P hP
        rcases hc1 with ⟨_, hw⟩ | ⟨P', hP', ⟨q, hq, hqP⟩, _⟩
        · rw [hw] at hP
          exact absurd hP (by simp [RollingWindow.newest_ts])
        · rw [hP'] at hP
          injection hP with hPP
          subst hPP
          rw [← hqP]
          exact (hbl q hq).2
      have hnewest : ingestNewest (ingestAll l) p.1 ≤ M := by
        unfold ingestNewest
        rcases hnt : (ingestAll l).newest_ts with _ | P
        · exact hbp.2
        · exact max_le (hPle P hnt) hbp.2
      have hacc : ((ingestAll l).ingest p.1 p.2).2 = true := by
        rcases hbool : ((ingestAll l).ingest p.1 p.2).2
        · exfalso
          have := (ingest_rejected_iff (ingestAll l) p.1 p.2).mp hbool
          omega
        · rfl
      have hnew := ingest_newest_eq (ingestAll l) p.1 p.2
      have hsl := ingest_accepted_state (ingestAll l) p.1 p.2 hacc
      refine ⟨?_, ?_, ?_⟩
      · refine Or.inr ⟨ingestNewest (ingestAll l) p.1, ?_, ?_, ?_⟩
        · rw [hfold]
          exact hnew
        · rcases hnt : (ingestAll l).newest_ts with _ | P
          · have hIN : ingestNewest (ingestAll l) p.1 = p.1 := by
              unfold ingestNewest
              rw [hnt]
            exact ⟨p, by simp, by rw [hIN]⟩
          · have hIN : ingestNewest (ingestAll l) p.1 = max P p.1 := by
              unfold ingestNewest
              rw [hnt]
            rcases max_choice P p.1 with hmx | hmx
            · rcases hc1 with ⟨_, hw⟩ | ⟨P', hP', ⟨q, hq, hqP⟩, _⟩
              · rw [hw] at hnt
                exact absurd hnt (by simp [RollingWindow.newest_ts])
              · rw [hP'] at hnt
                injection hnt with hPP
                refine ⟨q, by simp [hq], ?_⟩
                rw [hqP, hPP, hIN, hmx]
            · exact ⟨p, by simp, by rw [hIN, hmx]⟩
        · intro r hr
          rcases List.mem_append.mp hr with hrl | hrp
          · rcases hc1 with ⟨he, _⟩ | ⟨P', hP', _, hub⟩
            · subst he
              exact absurd hrl (List.not_mem_nil r)
            · have hIN : ingestNewest (ingestAll l) p.1 = max P' p.1 := by
                unfold ingestNewest
                rw [hP']
              rw [hIN]
              exact le_trans (hub r hrl) (le_max_left P' p.1)
          · have hrp2 : r = p := by simpa using hrp
            subst hrp2
            rcases hnt : (ingestAll l).newest_ts with _ | P
            · have hIN : ingestNewest (ingestAll l) r.1 = r.1 := by
                unfold ingestNewest
                rw [hnt]
              rw [hIN]
            · have hIN : ingestNewest (ingestAll l) r.1 = max P r.1 := by
                unfold ingestNewest
                rw [hnt]
              rw [hIN]
              exact le_max_right P r.1
      · intro r hr
        rw [hfold, hsl]
        rcases List.mem_append.mp hr with hrl | hrp
        · rw [Function.update_noteq]
          · exact hc2 r hrl
          · exact idx_inj_window r.1 p.1 M (hbl r hrl).1 (hbl r hrl).2
              hbp.1 hbp.2 (hdp r hrl)
        · have : r = p := by simpa using hrp
          subst this
          rw [Function.update_same]
      · intro i hi
        rw [hfold, hsl]
        rw [Function.update_noteq]
        · exact hc3 i (fun r hrl => hi r (by simp [hrl]))
        · exact fun hc => hi p (by simp) hc.symm

/-- C7: for a finite set of samples with pairwise-distinct timestamps all in
`[M−44, M]` where `M` is the attained maximum, ingesting them into a fresh
window in any order yields the same `summary()` (same newest_ts, count,
confidence and averages). -/
theorem summary_perm_invariant (l1 l2 : List (ℤ × Metrics)) (M : ℤ)
    (hperm : l1.Perm l2)
    (hb : ∀ p ∈ l1, M - 44 ≤ p.1 ∧ p.1 ≤ M)
    (hM : ∃ p ∈ l1, p.1 = M)
    (hd : l1.Pairwise (fun p q => p.1 ≠ q.1)) :
    (ingestAll l1).summary = (ingestAll l2).summary := by
  have hb2 : ∀ p ∈ l2, M - 44 ≤ p.1 ∧ p.1 ≤ M :=
    fun p hp => hb p (hperm.mem_iff.mpr hp)
  have hd2 : l2.Pairwise (fun p q => p.1 ≠ q.1) :=
    (hperm.pairwise_iff (fun h => h.symm)).mp hd
  obtain ⟨hc1a, hc2a, hc3a⟩ := ingestAll_char M l1 hb hd
  obtain ⟨hc1b, hc2b, hc3b⟩ := ingestAll_char M l2 hb2 hd2
  obtain ⟨pM, hpM, hpMe⟩ := hM
  have hne1 : l1 ≠ [] := fun he => by
    subst he
    exact absurd hpM (List.not_mem_nil pM)
  have hnewest : ∀ (l : List (ℤ × Metrics)),
      (∃ q ∈ l, q.1 = M) → (∀ p ∈ l, M - 44 ≤ p.1 ∧ p.1 ≤ M) →
      ((ingestAll l = {} ∧ l = []) ∨ True) →
      (∃ P, (ingestAll l).newest_ts = some P ∧ (∃ q ∈ l, q.1 = P) ∧
        (∀ p ∈ l, p.1 ≤ P)) → (ingestAll l).newest_ts = some M := by
    intro l ⟨q0, hq0, hq0M⟩ hbl _ ⟨P, hP, ⟨q, hq, hqP⟩, hub⟩
    have h1 : P ≤ M := by
      rw [← hqP]
      exact (hbl q hq).2
    have h2 : M ≤ P := by
      rw [← hq0M]
      exact hub q0 hq0
    rw [hP]
    rw [le_antisymm h1 h2]
  have hn1 : (ingestAll l1).newest_ts = some M := by
    rcases hc1a with ⟨he, _⟩ | hr
    · exact absurd he hne1
    · exact hnewest l1 ⟨pM, hpM, hpMe⟩ hb (Or.inr trivial) hr
  have hn2 : (ingestAll l2).newest_ts = some M := by
    rcases hc1b with ⟨he, _⟩ | hr
    · refine absurd ?_ (hne1 : ¬l1 = [])
      rw [← List.length_eq_zero]
      rw [hperm.length_eq, he]
      rfl
    · exact hnewest l2 ⟨pM, hperm.mem_iff.mp hpM, hpMe⟩ hb2
        (Or.inr trivial) hr
  have hslots : (ingestAll l1).slots = (ingestAll l2).slots := by
    funext i
    by_cases hex : ∃ p ∈ l1, idx p.1 = i
    · obtain ⟨p, hpmem, hip⟩ := hex
      rw [← hip]
      rw [hc2a p hpmem, hc2b p (hperm.mem_iff.mp hpmem)]
    · push_neg at hex
      rw [hc3a i hex, hc3b i (fun p hp => hex p (hperm.mem_iff.mpr hp))]
  exact summary_congr _ _ (by rw [hn1, hn2]) hslots

/-- Witness for C7: the two orders of a concrete two-sample set give equal
summaries. -/
theorem summary_perm_invariant_witness :
    (ingestAll [(10, { rtt_ms := 5 }), (11, { rtt_ms := 7 })]).summary =
    (ingestAll [(11, { rtt_ms := 7 }), (10, { rtt_ms := 5 })]).summary := by
  apply summary_perm_invariant _ _ 11
  · exact List.Perm.swap _ _ _
  · intro p hp
    simp only [List.mem_cons, List.not_mem_nil, or_false] at hp
    rcases hp with rfl | rfl
    · exact ⟨by norm_num, by norm_num⟩
    · exact ⟨by norm_num, by norm_num⟩
  · exact ⟨(11, { rtt_ms := 7 }), by simp, rfl⟩
  · refine List.Pairwise.cons ?_ (List.pairwise_singleton _ _)
    intro q hq
    simp only [List.mem_cons, List.not_mem_nil, or_false] at hq
    subst hq
    norm_num

end Telemetry
